import Mathlib

/-!
Glowworm swarm: a shallow embedding of `main.go`.

Modelling conventions.

* `float64` values are read as real numbers (`ℝ`), `math.Sqrt` as `Real.sqrt`.
  Definitions that take a square root or compare two reals are therefore
  marked `noncomputable`; everything else is a plain function.
* Where this reading changes what `Glowworm.Initialize` returns, the overflow
  of `maxPosition - minPosition`, the function is also given with `float64`
  values that can be infinite or NaN (`F64`, `Glowworm.InitializeF64`); the
  two agree whenever no range overflows (`Glowworm.InitializeF64_eq`).
* Go's `int` is `Int`; the only integer arithmetic is `count++`, bounded by the
  length of a slice, so no wrap-around can occur.
* The process-wide random generator is an explicit value of type `RandState`: two
  tapes holding the results of the successive calls of `rand.Float64` and of
  `rand.NormFloat64`, with one cursor each.
* A population `[]*Glowworm` is a `List Glowworm` of pairwise distinct agents,
  each owning its position slice: the pointer of an agent is its index in the
  list, and the pointer comparison `g != other` is a comparison of indices.
* A run-time panic (index out of range, `make` with a negative length) is the
  result `none`.
-/

/-- A single glowworm agent (`type Glowworm struct`). -/
structure Glowworm where
  Position : List ℝ
  Luminosity : ℝ
  NeighborCount : Int

/-- The random source behind `rand.Float64` and `rand.NormFloat64`. -/
structure RandState where
  float64 : Nat → ℝ
  normFloat64 : Nat → ℝ
  nFloat64 : Nat
  nNormFloat64 : Nat

/-- One call of `rand.Float64()`: the next value of the uniform tape. -/
def RandState.Float64 (r : RandState) : ℝ × RandState :=
  (r.float64 r.nFloat64, { r with nFloat64 := r.nFloat64 + 1 })

/-- One call of `rand.NormFloat64()`: the next value of the normal tape. -/
def RandState.NormFloat64 (r : RandState) : ℝ × RandState :=
  (r.normFloat64 r.nNormFloat64, { r with nNormFloat64 := r.nNormFloat64 + 1 })

/-- The zero value `Glowworm{}`. -/
def Glowworm.zero : Glowworm :=
  { Position := [], Luminosity := 0, NeighborCount := 0 }

/-- Body of the loop `for i := range g.Position` of `Glowworm.Initialize`. -/
def Glowworm.Initialize.body (minPosition maxPosition : ℝ)
    (st : List ℝ × RandState) (i : Nat) : List ℝ × RandState :=
  let draw := st.2.Float64
  (st.1.set i (draw.1 * (maxPosition - minPosition) + minPosition), draw.2)

/-- `func (g *Glowworm) Initialize(dimensions, minPosition, maxPosition,
minLuminosity, maxLuminosity)`: `make` panics on a negative length. -/
def Glowworm.Initialize (g : Glowworm) (dimensions : Int)
    (minPosition maxPosition minLuminosity maxLuminosity : ℝ) (rnd : RandState) :
    Option (Glowworm × RandState) :=
  if dimensions < 0 then none
  else
    let made : List ℝ := List.replicate dimensions.toNat 0
    let filled := (List.range made.length).foldl
      (Glowworm.Initialize.body minPosition maxPosition) (made, rnd)
    let draw := filled.2.Float64
    some ({ g with
            Position := filled.1
            Luminosity := draw.1 * (maxLuminosity - minLuminosity) + minLuminosity },
          draw.2)

/-- Body of the loop `for i := range g.Position` of `Glowworm.Distance`:
an index past the end of either slice panics. -/
def Glowworm.Distance.body (g other : Glowworm) (sum : ℝ) (i : Nat) : Option ℝ := do
  let a ← g.Position[i]?
  let b ← other.Position[i]?
  let diff := a - b
  pure (sum + diff * diff)

/-- `func (g *Glowworm) Distance(other *Glowworm) float64`. -/
noncomputable def Glowworm.Distance (g other : Glowworm) : Option ℝ := do
  let sum ← (List.range g.Position.length).foldlM (Glowworm.Distance.body g other) 0
  pure (Real.sqrt sum)

/-- Body of the loop `for _, other := range glowworms` of
`Glowworm.UpdateNeighborCount`, for the agent `g` at index `self`. `&&` is
short-circuit: `Distance` is not called on `g` itself. -/
noncomputable def Glowworm.UpdateNeighborCount.body (glowworms : List Glowworm)
    (self : Nat) (g : Glowworm) (perceptionRadius : ℝ) (count : Int) (j : Nat) :
    Option Int := do
  let other ← glowworms[j]?
  if self ≠ j then
    let d ← g.Distance other
    if d < perceptionRadius then pure (count + 1) else pure count
  else pure count

/-- `func (g *Glowworm) UpdateNeighborCount(glowworms []*Glowworm,
perceptionRadius float64)`, where `g` is the agent at index `self` of the
population. -/
noncomputable def Glowworm.UpdateNeighborCount (glowworms : List Glowworm) (self : Nat)
    (perceptionRadius : ℝ) : Option (List Glowworm) := do
  let g ← glowworms[self]?
  let count ← (List.range glowworms.length).foldlM
    (Glowworm.UpdateNeighborCount.body glowworms self g perceptionRadius) 0
  pure (glowworms.set self { g with NeighborCount := count })

/-- A swarm of glowworm agents (`type GlowwormSwarm struct`). -/
structure GlowwormSwarm where
  Glowworms : List Glowworm
  PerceptionRadius : ℝ
  AttractionFactor : ℝ
  RandomMotionFactor : ℝ

/-- Body of the loop `for i := range s.Glowworms` of `GlowwormSwarm.Initialize`. -/
def GlowwormSwarm.Initialize.body (dimensions : Int)
    (minPosition maxPosition minLuminosity maxLuminosity : ℝ)
    (st : List Glowworm × RandState) (i : Nat) : Option (List Glowworm × RandState) := do
  let fresh := Glowworm.zero
  let init ← fresh.Initialize dimensions minPosition maxPosition
    minLuminosity maxLuminosity st.2
  pure (st.1.set i init.1, init.2)

/-- `func (s *GlowwormSwarm) Initialize(swarmSize, dimensions, minPosition,
maxPosition, minLuminosity, maxLuminosity)`: `make` panics on a negative
length. -/
def GlowwormSwarm.Initialize (s : GlowwormSwarm) (swarmSize dimensions : Int)
    (minPosition maxPosition minLuminosity maxLuminosity : ℝ) (rnd : RandState) :
    Option (GlowwormSwarm × RandState) :=
  if swarmSize < 0 then none
  else do
    let made : List Glowworm := List.replicate swarmSize.toNat Glowworm.zero
    let filled ← (List.range made.length).foldlM
      (GlowwormSwarm.Initialize.body dimensions minPosition maxPosition
        minLuminosity maxLuminosity) (made, rnd)
    pure ({ s with Glowworms := filled.1 }, filled.2)

/-- Body of the loop `for i := range glowworm.Position` of
`GlowwormSwarm.Update`. -/
def GlowwormSwarm.Update.motion (randomMotionFactor : ℝ)
    (st : List ℝ × RandState) (i : Nat) : Option (List ℝ × RandState) := do
  let p ← st.1[i]?
  let draw := st.2.NormFloat64
  pure (st.1.set i (p + draw.1 * randomMotionFactor), draw.2)

/-- Body of the loop `for _, glowworm := range s.Glowworms` of
`GlowwormSwarm.Update`, for the agent at index `i`. -/
noncomputable def GlowwormSwarm.Update.body (s : GlowwormSwarm)
    (st : List Glowworm × RandState) (i : Nat) : Option (List Glowworm × RandState) := do
  let counted ← Glowworm.UpdateNeighborCount st.1 i s.PerceptionRadius
  let g ← counted[i]?
  let lit : Glowworm :=
    { g with Luminosity := g.Luminosity + s.AttractionFactor * (g.NeighborCount : ℝ) }
  let moved ← (List.range lit.Position.length).foldlM
    (GlowwormSwarm.Update.motion s.RandomMotionFactor) (lit.Position, st.2)
  pure (counted.set i { lit with Position := moved.1 }, moved.2)

/-- `func (s *GlowwormSwarm) Update()`. -/
noncomputable def GlowwormSwarm.Update (s : GlowwormSwarm) (rnd : RandState) :
    Option (GlowwormSwarm × RandState) := do
  let out ← (List.range s.Glowworms.length).foldlM (GlowwormSwarm.Update.body s)
    (s.Glowworms, rnd)
  pure ({ s with Glowworms := out.1 }, out.2)

/-- The driver loop `for i := 0; i < iterations; i++ { swarm.Update() }`. -/
noncomputable def GlowwormSwarm.run : Nat → GlowwormSwarm → RandState → Option (GlowwormSwarm × RandState)
  | 0, s, rnd => some (s, rnd)
  | k + 1, s, rnd => do
    let out ← s.Update rnd
    GlowwormSwarm.run k out.1 out.2

/-! ## The two-phase variant -/

/-- Body of the second loop of the two-phase variant: the luminosity
increment and the random motion of `Update`, from the stored `NeighborCount`. -/
def GlowwormSwarm.UpdateTwoPhase.apply (s : GlowwormSwarm)
    (st : List Glowworm × RandState) (i : Nat) : Option (List Glowworm × RandState) := do
  let g ← st.1[i]?
  let lit : Glowworm :=
    { g with Luminosity := g.Luminosity + s.AttractionFactor * (g.NeighborCount : ℝ) }
  let moved ← (List.range lit.Position.length).foldlM
    (GlowwormSwarm.Update.motion s.RandomMotionFactor) (lit.Position, st.2)
  pure (st.1.set i { lit with Position := moved.1 }, moved.2)

/-- The two-phase (compute-then-apply, snapshot) variant of `Update` that the
specification contrasts with the code: a first loop calls
`UpdateNeighborCount` for every agent, so that every count is taken against
the positions before the pass, and a second loop applies the luminosity
increments and the position perturbations of `Update`, in the same order and
with the same draws. -/
noncomputable def GlowwormSwarm.UpdateTwoPhase (s : GlowwormSwarm) (rnd : RandState) :
    Option (GlowwormSwarm × RandState) := do
  let counted ← (List.range s.Glowworms.length).foldlM
    (fun gs i => Glowworm.UpdateNeighborCount gs i s.PerceptionRadius) s.Glowworms
  let out ← (List.range s.Glowworms.length).foldlM
    (GlowwormSwarm.UpdateTwoPhase.apply s) (counted, rnd)
  pure ({ s with Glowworms := out.1 }, out.2)

/-! ## `float64` overflow in `Glowworm.Initialize` -/

/-- A `float64` value with its overflow behaviour: a finite value, read as a
real number (rounding is not modelled), an infinity, or NaN. -/
inductive F64 where
  | fin (x : ℝ)
  | posInf
  | negInf
  | nan

/-- The magnitude from which a `float64` result overflows to an infinity under
round-to-nearest: `2^1024 - 2^970`, half an ulp above `math.MaxFloat64`. -/
def F64.overflow : ℝ := 2 ^ 1024 - 2 ^ 970

/-- The `float64` result of an operation whose exact result is `x`. -/
noncomputable def F64.ofExact (x : ℝ) : F64 :=
  if F64.overflow ≤ x then F64.posInf
  else if x ≤ -F64.overflow then F64.negInf
  else F64.fin x

/-- Negation of a `float64`. -/
def F64.neg : F64 → F64
  | F64.fin a => F64.fin (-a)
  | F64.posInf => F64.negInf
  | F64.negInf => F64.posInf
  | F64.nan => F64.nan

/-- The `float64` sum `a + b`. -/
noncomputable def F64.add : F64 → F64 → F64
  | F64.fin a, F64.fin b => F64.ofExact (a + b)
  | F64.fin _, F64.posInf => F64.posInf
  | F64.fin _, F64.negInf => F64.negInf
  | F64.posInf, F64.fin _ => F64.posInf
  | F64.posInf, F64.posInf => F64.posInf
  | F64.negInf, F64.fin _ => F64.negInf
  | F64.negInf, F64.negInf => F64.negInf
  | F64.posInf, F64.negInf => F64.nan
  | F64.negInf, F64.posInf => F64.nan
  | F64.nan, _ => F64.nan
  | _, F64.nan => F64.nan

/-- The `float64` difference `a - b`. -/
noncomputable def F64.sub (a b : F64) : F64 := F64.add a (F64.neg b)

/-- The product of an infinity of sign `positive` and the finite value `a`. -/
noncomputable def F64.scaleInf (positive : Bool) (a : ℝ) : F64 :=
  if a = 0 then F64.nan
  else if (0 < a) = (positive = true) then F64.posInf
  else F64.negInf

/-- The `float64` product `a * b`. -/
noncomputable def F64.mul : F64 → F64 → F64
  | F64.fin a, F64.fin b => F64.ofExact (a * b)
  | F64.fin a, F64.posInf => F64.scaleInf true a
  | F64.fin a, F64.negInf => F64.scaleInf false a
  | F64.posInf, F64.fin b => F64.scaleInf true b
  | F64.negInf, F64.fin b => F64.scaleInf false b
  | F64.posInf, F64.posInf => F64.posInf
  | F64.negInf, F64.negInf => F64.posInf
  | F64.posInf, F64.negInf => F64.negInf
  | F64.negInf, F64.posInf => F64.negInf
  | F64.nan, _ => F64.nan
  | _, F64.nan => F64.nan

/-- The test `lo <= x && x <= hi` on a `float64`, for finite `lo` and `hi`:
false on an infinity beyond the bounds and on NaN. -/
def F64.within (lo hi : ℝ) : F64 → Prop
  | F64.fin x => lo ≤ x ∧ x ≤ hi
  | _ => False

/-- Body of the loop `for i := range g.Position` of `Glowworm.Initialize`,
with the overflow of `float64` arithmetic. -/
noncomputable def Glowworm.InitializeF64.body (minPosition maxPosition : F64)
    (st : List F64 × RandState) (i : Nat) : List F64 × RandState :=
  let draw := st.2.Float64
  (st.1.set i (F64.add (F64.mul (F64.fin draw.1) (F64.sub maxPosition minPosition))
    minPosition), draw.2)

/-- `Glowworm.Initialize` with the overflow of `float64` arithmetic: the
values that it assigns to `g.Position` and to `g.Luminosity`, and the random
source afterwards. -/
noncomputable def Glowworm.InitializeF64 (dimensions : Int)
    (minPosition maxPosition minLuminosity maxLuminosity : F64) (rnd : RandState) :
    Option (List F64 × F64 × RandState) :=
  if dimensions < 0 then none
  else
    let made : List F64 := List.replicate dimensions.toNat (F64.fin 0)
    let filled := (List.range made.length).foldl
      (Glowworm.InitializeF64.body minPosition maxPosition) (made, rnd)
    let draw := filled.2.Float64
    some (filled.1,
      F64.add (F64.mul (F64.fin draw.1) (F64.sub maxLuminosity minLuminosity)) minLuminosity,
      draw.2)

/-! ## Specification-side notions -/

/-- Sum over the coordinates `i < n` of the squared differences of two
position vectors. -/
noncomputable def sqDiffSum (p q : List ℝ) (n : Nat) : ℝ :=
  ∑ i in Finset.range n, (p.getD i 0 - q.getD i 0) ^ 2

/-- Agent `j` is another agent than agent `i` and its `Distance` from agent
`i` is strictly less than `r`. -/
def isStrictNeighbor (glowworms : List Glowworm) (i : Nat) (r : ℝ) (j : Nat) : Prop :=
  j ≠ i ∧ ∃ g other d, glowworms[i]? = some g ∧ glowworms[j]? = some other ∧
    g.Distance other = some d ∧ d < r

open Classical in
/-- The indices `j ≠ i` of the agents of the population whose `Distance` from
the agent at index `i` is strictly less than `r`. -/
noncomputable def strictNeighbors (glowworms : List Glowworm) (i : Nat) (r : ℝ) :
    Finset Nat :=
  (Finset.range glowworms.length).filter (isStrictNeighbor glowworms i r)

/-- The three-agent fixture: agents at `[0,0]`, `[1,0]` and `[5,0]`. -/
def fixture3 : List Glowworm :=
  [ { Position := [0, 0], Luminosity := 0, NeighborCount := 0 },
    { Position := [1, 0], Luminosity := 0, NeighborCount := 0 },
    { Position := [5, 0], Luminosity := 0, NeighborCount := 0 } ]

/-- The two-agent fixture: agents at `[0,0]` and `[2,0]`, at distance `2`. -/
def fixture2 : List Glowworm :=
  [ { Position := [0, 0], Luminosity := 0, NeighborCount := 0 },
    { Position := [2, 0], Luminosity := 0, NeighborCount := 0 } ]

/-- Two distinct agents with the same field values, both at `[1,1]`. -/
def fixtureTwins : List Glowworm :=
  [ { Position := [1, 1], Luminosity := 0, NeighborCount := 0 },
    { Position := [1, 1], Luminosity := 0, NeighborCount := 0 } ]

/-- A random source whose every uniform draw is `u` and every normal draw is
`z`, with both cursors at the start of their tapes. -/
def RandState.const (u z : ℝ) : RandState :=
  { float64 := fun _ => u, normFloat64 := fun _ => z, nFloat64 := 0, nNormFloat64 := 0 }

/-- Two random sources deliver the same sequences of draws from where their
cursors stand. -/
def RandState.sameDraws (a b : RandState) : Prop :=
  (∀ k : Nat, a.float64 (a.nFloat64 + k) = b.float64 (b.nFloat64 + k)) ∧
  (∀ k : Nat, a.normFloat64 (a.nNormFloat64 + k) = b.normFloat64 (b.nNormFloat64 + k))

/-- Two results are both a panic, or both a value, the values being related
by `R`. -/
def optRel {α : Type} (R : α → α → Prop) : Option α → Option α → Prop
  | none, none => True
  | some a, some b => R a b
  | _, _ => False

/-- The same data in two loop states whose random sources deliver the same
draws. -/
def sameState {α : Type} (a b : α × RandState) : Prop :=
  a.1 = b.1 ∧ a.2.sameDraws b.2

/-- The agent `g` after its turn in `Update`, given the number `count` of its
neighbours and the random source `rnd` as it stands when the motion loop
starts. -/
def GlowwormSwarm.turn (s : GlowwormSwarm) (g : Glowworm) (count : Nat)
    (rnd : RandState) : Glowworm :=
  { Position := (List.range g.Position.length).map
      (fun k => g.Position.getD k 0
        + rnd.normFloat64 (rnd.nNormFloat64 + k) * s.RandomMotionFactor)
    Luminosity := g.Luminosity + s.AttractionFactor * ((count : Int) : ℝ)
    NeighborCount := (count : Int) }

/-- The population after the first `n` turns of one `Update` pass started
from the population `gs` of `D`-dimensional agents and the random source
`rnd`: turn `n` reads the population left by the turns before it. -/
noncomputable def GlowwormSwarm.sweep (s : GlowwormSwarm) (D : Nat) (gs : List Glowworm)
    (rnd : RandState) : Nat → List Glowworm
  | 0 => gs
  | n + 1 =>
    (GlowwormSwarm.sweep s D gs rnd n).set n
      (s.turn ((GlowwormSwarm.sweep s D gs rnd n).getD n Glowworm.zero)
        (strictNeighbors (GlowwormSwarm.sweep s D gs rnd n) n s.PerceptionRadius).card
        { rnd with nNormFloat64 := rnd.nNormFloat64 + n * D })

/-- Two one-dimensional agents at `0` and `1`, with perception radius `2`,
attraction factor `1` and random-motion factor `1`. -/
def swarmPair : GlowwormSwarm :=
  { Glowworms := [ { Position := [0], Luminosity := 0, NeighborCount := 0 },
                   { Position := [1], Luminosity := 0, NeighborCount := 0 } ],
    PerceptionRadius := 2, AttractionFactor := 1, RandomMotionFactor := 1 }

/-- A random source whose first normal draw is `10` and whose other draws are
all `0`. -/
def randJump : RandState :=
  { float64 := fun _ => 0, normFloat64 := fun k => if k = 0 then 10 else 0,
    nFloat64 := 0, nNormFloat64 := 0 }

/-- The swarm of the driver before `Initialize`: no agent, perception radius
`2.0`, attraction factor `0.1`, random-motion factor `0.1`. -/
noncomputable def driverSwarm : GlowwormSwarm :=
  { Glowworms := [], PerceptionRadius := 2, AttractionFactor := 1 / 10,
    RandomMotionFactor := 1 / 10 }

/-- A swarm over the three-agent fixture with the parameters `radius`,
`attraction` and `motion`. -/
def fixtureSwarm (radius attraction motion : ℝ) : GlowwormSwarm :=
  { Glowworms := fixture3, PerceptionRadius := radius, AttractionFactor := attraction,
    RandomMotionFactor := motion }

/-! ## The Euclidean distance -/

theorem Glowworm.Distance.body_some (g other : Glowworm) (sum : ℝ) (i : Nat)
    (hg : i < g.Position.length) (ho : i < other.Position.length) :
    Glowworm.Distance.body g other sum i
      = some (sum + (g.Position.getD i 0 - other.Position.getD i 0) ^ 2) := by
  simp [Glowworm.Distance.body, List.getElem?_eq_getElem hg, List.getElem?_eq_getElem ho,
    List.getD_eq_getElem?_getD, pow_two]

theorem Glowworm.Distance.loop_some (g other : Glowworm) (sum : ℝ) :
    ∀ n : Nat, n ≤ g.Position.length → n ≤ other.Position.length →
      (List.range n).foldlM (Glowworm.Distance.body g other) sum
        = some (sum + sqDiffSum g.Position other.Position n) := by
  intro n
  induction n with
  | zero => intro _ _; simp [sqDiffSum]
  | succ n ih =>
    intro hg ho
    rw [List.range_succ, List.foldlM_append, ih (by omega) (by omega)]
    simp [Glowworm.Distance.body_some g other _ n (by omega) (by omega), sqDiffSum,
      Finset.sum_range_succ, add_assoc]

theorem Glowworm.Distance.loop_none (g other : Glowworm) (sum : ℝ) :
    ∀ n : Nat, n ≤ g.Position.length → other.Position.length < n →
      (List.range n).foldlM (Glowworm.Distance.body g other) sum = none := by
  intro n
  induction n with
  | zero => intro _ h; omega
  | succ n ih =>
    intro hg ho
    rw [List.range_succ, List.foldlM_append]
    by_cases h : other.Position.length < n
    · rw [ih (by omega) h]; rfl
    · rw [Glowworm.Distance.loop_some g other sum n (by omega) (by omega)]
      have hn : other.Position.length ≤ n := by omega
      simp [Glowworm.Distance.body, List.getElem?_eq_none hn]

/-- The value of `Distance` when `other` has at least as many coordinates. -/
theorem Glowworm.Distance_of_le (g other : Glowworm)
    (h : g.Position.length ≤ other.Position.length) :
    g.Distance other
      = some (Real.sqrt (sqDiffSum g.Position other.Position g.Position.length)) := by
  simp [Glowworm.Distance, Glowworm.Distance.loop_some g other 0 _ le_rfl h]

/-- `Distance` panics when `other` has fewer coordinates. -/
theorem Glowworm.Distance_of_lt (g other : Glowworm)
    (h : other.Position.length < g.Position.length) :
    g.Distance other = none := by
  simp [Glowworm.Distance, Glowworm.Distance.loop_none g other 0 _ le_rfl h]

theorem sqDiffSum_nonneg (p q : List ℝ) (n : Nat) : 0 ≤ sqDiffSum p q n :=
  Finset.sum_nonneg (fun _ _ => sq_nonneg _)

theorem sqDiffSum_comm (p q : List ℝ) (n : Nat) : sqDiffSum p q n = sqDiffSum q p n := by
  unfold sqDiffSum
  exact Finset.sum_congr rfl (fun i _ => by ring)

/-- C2: for agents whose position vectors have the same length, `Distance`
returns the square root of the sum over all coordinates of the squared
coordinate differences, the Euclidean distance over the reals. -/
theorem Glowworm.Distance_euclidean (g other : Glowworm)
    (h : g.Position.length = other.Position.length) :
    g.Distance other = some (Real.sqrt
      (∑ i in Finset.range g.Position.length,
        (g.Position.getD i 0 - other.Position.getD i 0) ^ 2)) :=
  Glowworm.Distance_of_le g other (le_of_eq h)

theorem Glowworm.Distance_euclidean_witness :
    Glowworm.Distance { Position := [0, 0], Luminosity := 0, NeighborCount := 0 }
      { Position := [3, 4], Luminosity := 0, NeighborCount := 0 } = some 5 := by
  rw [Glowworm.Distance_euclidean { Position := [0, 0], Luminosity := 0, NeighborCount := 0 }
    { Position := [3, 4], Luminosity := 0, NeighborCount := 0 } rfl]
  have h : Real.sqrt 25 = 5 := by
    rw [show (25 : ℝ) = 5 ^ 2 by norm_num]
    exact Real.sqrt_sq (by norm_num)
  simp [Finset.sum_range_succ]
  norm_num [h]

/-- C3: `Distance` is symmetric on agents whose position vectors have the same
length. -/
theorem Glowworm.Distance_symm (a b : Glowworm)
    (h : a.Position.length = b.Position.length) :
    a.Distance b = b.Distance a := by
  rw [Glowworm.Distance_of_le a b (le_of_eq h), Glowworm.Distance_of_le b a (le_of_eq h.symm),
    sqDiffSum_comm, h]

theorem Glowworm.Distance_symm_witness :
    Glowworm.Distance { Position := [0, 0], Luminosity := 0, NeighborCount := 0 }
        { Position := [3, 4], Luminosity := 1, NeighborCount := 2 }
      = Glowworm.Distance { Position := [3, 4], Luminosity := 1, NeighborCount := 2 }
        { Position := [0, 0], Luminosity := 0, NeighborCount := 0 } :=
  Glowworm.Distance_symm _ _ rfl

theorem sqDiffSum_eq_zero_iff (p q : List ℝ) (h : p.length = q.length) :
    sqDiffSum p q p.length = 0 ↔ p = q := by
  unfold sqDiffSum
  rw [Finset.sum_eq_zero_iff_of_nonneg (fun _ _ => sq_nonneg _)]
  constructor
  · intro hz
    apply List.ext_getElem h
    intro i hp hq
    have := hz i (Finset.mem_range.mpr hp)
    rw [List.getD_eq_getElem _ _ hp, List.getD_eq_getElem _ _ hq] at this
    have h2 := pow_eq_zero_iff (two_ne_zero) |>.mp this
    linarith
  · rintro rfl i _
    simp

/-- C4: on agents whose position vectors have the same length, `Distance` is
zero exactly when the two position vectors are equal coordinate for
coordinate. -/
theorem Glowworm.Distance_eq_zero_iff (a b : Glowworm)
    (h : a.Position.length = b.Position.length) :
    a.Distance b = some 0 ↔ a.Position = b.Position := by
  rw [Glowworm.Distance_of_le a b (le_of_eq h), Option.some_inj,
    Real.sqrt_eq_zero (sqDiffSum_nonneg _ _ _)]
  exact sqDiffSum_eq_zero_iff _ _ h

theorem Glowworm.Distance_eq_zero_iff_witness :
    (Glowworm.Distance { Position := [1, 2], Luminosity := 0, NeighborCount := 0 }
        { Position := [1, 2], Luminosity := 7, NeighborCount := 3 } = some 0) ∧
    ¬ (Glowworm.Distance { Position := [1, 2], Luminosity := 0, NeighborCount := 0 }
        { Position := [1, 3], Luminosity := 0, NeighborCount := 0 } = some 0) := by
  constructor
  · exact (Glowworm.Distance_eq_zero_iff _ _ rfl).mpr rfl
  · intro h0
    have := (Glowworm.Distance_eq_zero_iff
      { Position := [1, 2], Luminosity := 0, NeighborCount := 0 }
      { Position := [1, 3], Luminosity := 0, NeighborCount := 0 } rfl).mp h0
    simp at this

/-! ## Counting neighbours -/

open Classical in
theorem Glowworm.UpdateNeighborCount.body_count (glowworms : List Glowworm) (D i : Nat)
    (g : Glowworm) (r : ℝ) (hdim : ∀ x ∈ glowworms, x.Position.length = D)
    (hg : glowworms[i]? = some g) (count : Int) (j : Nat) (hj : j < glowworms.length) :
    Glowworm.UpdateNeighborCount.body glowworms i g r count j
      = some (count + if isStrictNeighbor glowworms i r j then 1 else 0) := by
  have hgD : g.Position.length = D := hdim g (List.getElem?_mem hg)
  have hoD : (glowworms[j]).Position.length = D := hdim _ (List.getElem_mem hj)
  have hdist := Glowworm.Distance_of_le g glowworms[j] (by omega)
  by_cases hij : i = j
  · have hn : ¬ isStrictNeighbor glowworms i r j := fun h => h.1 hij.symm
    rw [if_neg hn]
    simp [Glowworm.UpdateNeighborCount.body, List.getElem?_eq_getElem hj, hij]
  · by_cases hlt : Real.sqrt (sqDiffSum g.Position (glowworms[j]).Position g.Position.length) < r
    · have hp : isStrictNeighbor glowworms i r j :=
        ⟨fun h => hij h.symm, g, glowworms[j], _, hg, List.getElem?_eq_getElem hj, hdist, hlt⟩
      simp [Glowworm.UpdateNeighborCount.body, List.getElem?_eq_getElem hj, hij, hdist, hlt, hp]
    · have hn : ¬ isStrictNeighbor glowworms i r j := by
        rintro ⟨_, g', other, d, hg', ho, hd, hlt'⟩
        rw [hg] at hg'
        rw [List.getElem?_eq_getElem hj] at ho
        cases hg'; cases ho
        rw [hdist] at hd
        cases hd
        exact hlt hlt'
      simp [Glowworm.UpdateNeighborCount.body, List.getElem?_eq_getElem hj, hij, hdist, hlt, hn]

open Classical in
theorem Glowworm.UpdateNeighborCount.loop_count (glowworms : List Glowworm) (D i : Nat)
    (g : Glowworm) (r : ℝ) (hdim : ∀ x ∈ glowworms, x.Position.length = D)
    (hg : glowworms[i]? = some g) (count : Int) :
    ∀ n : Nat, n ≤ glowworms.length →
      (List.range n).foldlM (Glowworm.UpdateNeighborCount.body glowworms i g r) count
        = some (count +
            (((Finset.range n).filter (isStrictNeighbor glowworms i r)).card : Int)) := by
  intro n
  induction n with
  | zero => intro _; simp
  | succ n ih =>
    intro hn
    rw [List.range_succ, List.foldlM_append, ih (by omega)]
    simp only [Option.some_bind, List.foldlM_cons, List.foldlM_nil, Option.bind_eq_bind]
    rw [Glowworm.UpdateNeighborCount.body_count glowworms D i g r hdim hg _ n (by omega)]
    rw [Finset.range_succ, Finset.filter_insert]
    by_cases hp : isStrictNeighbor glowworms i r n
    · simp [hp, add_assoc]
    · simp [hp]

/-- The result of `UpdateNeighborCount` on a population whose position vectors
all have the same length. -/
theorem Glowworm.UpdateNeighborCount_eq (glowworms : List Glowworm) (D i : Nat) (r : ℝ)
    (hdim : ∀ x ∈ glowworms, x.Position.length = D) (hi : i < glowworms.length) :
    Glowworm.UpdateNeighborCount glowworms i r
      = some (glowworms.set i
          { glowworms[i] with NeighborCount := ((strictNeighbors glowworms i r).card : Int) }) := by
  have hg : glowworms[i]? = some glowworms[i] := List.getElem?_eq_getElem hi
  simp only [Glowworm.UpdateNeighborCount, hg, Option.some_bind, Option.bind_eq_bind]
  rw [Glowworm.UpdateNeighborCount.loop_count glowworms D i _ r hdim hg 0 _ le_rfl]
  simp [strictNeighbors]

/-- For a positive radius, the neighbour test on two agents in range compares
the sum of squared coordinate differences with the square of the radius. -/
theorem isStrictNeighbor_iff (glowworms : List Glowworm) (i j : Nat) (r : ℝ)
    (hi : i < glowworms.length) (hj : j < glowworms.length)
    (hle : (glowworms[i]).Position.length ≤ (glowworms[j]).Position.length) (hr : 0 < r) :
    isStrictNeighbor glowworms i r j ↔
      j ≠ i ∧ sqDiffSum (glowworms[i]).Position (glowworms[j]).Position
        (glowworms[i]).Position.length < r ^ 2 := by
  unfold isStrictNeighbor
  simp only [List.getElem?_eq_getElem hi, List.getElem?_eq_getElem hj, Option.some.injEq]
  constructor
  · rintro ⟨hne, g, other, d, rfl, rfl, hd, hlt⟩
    rw [Glowworm.Distance_of_le _ _ hle] at hd
    cases hd
    exact ⟨hne, (Real.sqrt_lt' hr).mp hlt⟩
  · rintro ⟨hne, hlt⟩
    exact ⟨hne, _, _, _, rfl, rfl, Glowworm.Distance_of_le _ _ hle, (Real.sqrt_lt' hr).mpr hlt⟩

theorem strictNeighbors_fixture3 :
    strictNeighbors fixture3 0 2 = {1} ∧ strictNeighbors fixture3 1 2 = {0} ∧
      strictNeighbors fixture3 2 2 = ∅ := by
  have e : ∀ i j : Nat, ∀ hi : i < fixture3.length, ∀ hj : j < fixture3.length,
      (isStrictNeighbor fixture3 i 2 j ↔
        j ≠ i ∧ sqDiffSum (fixture3[i]).Position (fixture3[j]).Position
          (fixture3[i]).Position.length < 2 ^ 2) := by
    intro i j hi hj
    apply isStrictNeighbor_iff fixture3 i j 2 hi hj _ (by norm_num)
    have h3 : fixture3.length = 3 := rfl
    have hi3 : i < 3 := by omega
    have hj3 : j < 3 := by omega
    interval_cases i <;> interval_cases j <;> simp [fixture3]
  have h00 : ¬ isStrictNeighbor fixture3 0 2 0 := by
    rw [e 0 0 (by decide) (by decide)]; simp
  have h01 : isStrictNeighbor fixture3 0 2 1 := by
    rw [e 0 1 (by decide) (by decide)]; norm_num [fixture3, sqDiffSum, Finset.sum_range_succ]
  have h02 : ¬ isStrictNeighbor fixture3 0 2 2 := by
    rw [e 0 2 (by decide) (by decide)]; norm_num [fixture3, sqDiffSum, Finset.sum_range_succ]
  have h10 : isStrictNeighbor fixture3 1 2 0 := by
    rw [e 1 0 (by decide) (by decide)]; norm_num [fixture3, sqDiffSum, Finset.sum_range_succ]
  have h11 : ¬ isStrictNeighbor fixture3 1 2 1 := by
    rw [e 1 1 (by decide) (by decide)]; simp
  have h12 : ¬ isStrictNeighbor fixture3 1 2 2 := by
    rw [e 1 2 (by decide) (by decide)]; norm_num [fixture3, sqDiffSum, Finset.sum_range_succ]
  have h20 : ¬ isStrictNeighbor fixture3 2 2 0 := by
    rw [e 2 0 (by decide) (by decide)]; norm_num [fixture3, sqDiffSum, Finset.sum_range_succ]
  have h21 : ¬ isStrictNeighbor fixture3 2 2 1 := by
    rw [e 2 1 (by decide) (by decide)]; norm_num [fixture3, sqDiffSum, Finset.sum_range_succ]
  have h22 : ¬ isStrictNeighbor fixture3 2 2 2 := by
    rw [e 2 2 (by decide) (by decide)]; simp
  have hr : Finset.range fixture3.length = {0, 1, 2} := by
    ext x; simp [fixture3]; omega
  refine ⟨?_, ?_, ?_⟩ <;>
    simp [strictNeighbors, hr, Finset.filter_insert, Finset.filter_singleton,
      h00, h01, h02, h10, h11, h12, h20, h21, h22]

/-- C1: on a population whose position vectors all have the same length,
`UpdateNeighborCount` for the agent at index `i` succeeds and leaves in its
`NeighborCount` the number of indices `j ≠ i` whose agent has `Distance` from
it strictly less than the radius. -/
theorem Glowworm.UpdateNeighborCount_counts_strict (glowworms : List Glowworm) (D i : Nat)
    (r : ℝ) (hdim : ∀ x ∈ glowworms, x.Position.length = D) (hi : i < glowworms.length) :
    ∃ out g, Glowworm.UpdateNeighborCount glowworms i r = some out ∧ out[i]? = some g ∧
      g.NeighborCount = ((strictNeighbors glowworms i r).card : Int) := by
  refine ⟨_, { glowworms[i] with NeighborCount := ((strictNeighbors glowworms i r).card : Int) },
    Glowworm.UpdateNeighborCount_eq glowworms D i r hdim hi, ?_, rfl⟩
  simp [List.getElem?_set, hi]

theorem Glowworm.UpdateNeighborCount_counts_strict_witness :
    (∃ out g, Glowworm.UpdateNeighborCount fixture3 0 2 = some out ∧ out[0]? = some g ∧
      g.NeighborCount = 1) ∧
    (∃ out g, Glowworm.UpdateNeighborCount fixture3 1 2 = some out ∧ out[1]? = some g ∧
      g.NeighborCount = 1) ∧
    (∃ out g, Glowworm.UpdateNeighborCount fixture3 2 2 = some out ∧ out[2]? = some g ∧
      g.NeighborCount = 0) := by
  have hdim : ∀ x ∈ fixture3, x.Position.length = 2 := by
    intro x hx; simp [fixture3] at hx; rcases hx with rfl | rfl | rfl <;> rfl
  obtain ⟨s0, s1, s2⟩ := strictNeighbors_fixture3
  have c0 := Glowworm.UpdateNeighborCount_counts_strict fixture3 2 0 2 hdim (by decide)
  have c1 := Glowworm.UpdateNeighborCount_counts_strict fixture3 2 1 2 hdim (by decide)
  have c2 := Glowworm.UpdateNeighborCount_counts_strict fixture3 2 2 2 hdim (by decide)
  rw [s0] at c0
  rw [s1] at c1
  rw [s2] at c2
  exact ⟨by simpa using c0, by simpa using c1, by simpa using c2⟩

/-! ## Initialisation of one agent -/

theorem Glowworm.Initialize.fill_spec (minPosition maxPosition : ℝ) (l : List ℝ)
    (rnd : RandState) :
    ∀ k : Nat, k ≤ l.length →
      ((List.range k).foldl (Glowworm.Initialize.body minPosition maxPosition) (l, rnd)).2
          = { rnd with nFloat64 := rnd.nFloat64 + k } ∧
      ((List.range k).foldl (Glowworm.Initialize.body minPosition maxPosition) (l, rnd)).1.length
          = l.length ∧
      ∀ i : Nat,
        ((List.range k).foldl (Glowworm.Initialize.body minPosition maxPosition) (l, rnd)).1[i]?
          = if i < k then
              some (rnd.float64 (rnd.nFloat64 + i) * (maxPosition - minPosition) + minPosition)
            else l[i]? := by
  intro k
  induction k with
  | zero => intro _; simp
  | succ k ih =>
    intro hk
    obtain ⟨h2, hlen, hget⟩ := ih (by omega)
    rw [List.range_succ, List.foldl_append]
    simp only [List.foldl_cons, List.foldl_nil, Glowworm.Initialize.body]
    refine ⟨?_, ?_, ?_⟩
    · rw [h2]; simp [RandState.Float64, Nat.add_assoc]
    · rw [List.length_set, hlen]
    · intro i
      rw [List.getElem?_set, hlen, h2]
      by_cases hik : k = i
      · subst hik
        simp [RandState.Float64, show k < l.length by omega]
      · rw [if_neg hik, hget i]
        by_cases hlt : i < k
        · simp [hlt, show i < k + 1 by omega]
        · simp [hlt, show ¬ i < k + 1 by omega]

/-- The result of `Glowworm.Initialize` for a non-negative `dimensions`: the
coordinates and the luminosity are affine images of the first
`dimensions + 1` uniform draws, and `NeighborCount` is not written. -/
theorem Glowworm.Initialize_result (g : Glowworm) (dimensions : Int)
    (minPosition maxPosition minLuminosity maxLuminosity : ℝ) (rnd : RandState)
    (hd : 0 ≤ dimensions) :
    ∃ g' : Glowworm,
      g.Initialize dimensions minPosition maxPosition minLuminosity maxLuminosity rnd
        = some (g', { rnd with nFloat64 := rnd.nFloat64 + dimensions.toNat + 1 }) ∧
      g'.Position.length = dimensions.toNat ∧
      (∀ i : Nat, i < dimensions.toNat → g'.Position[i]? = some
        (rnd.float64 (rnd.nFloat64 + i) * (maxPosition - minPosition) + minPosition)) ∧
      g'.Luminosity = rnd.float64 (rnd.nFloat64 + dimensions.toNat)
        * (maxLuminosity - minLuminosity) + minLuminosity ∧
      g'.NeighborCount = g.NeighborCount := by
  obtain ⟨h2, hlen, hget⟩ := Glowworm.Initialize.fill_spec minPosition maxPosition
    (List.replicate dimensions.toNat 0) rnd (List.replicate dimensions.toNat (0 : ℝ)).length le_rfl
  simp only [List.length_replicate] at h2 hlen hget
  refine ⟨{ g with
      Position := ((List.range dimensions.toNat).foldl
        (Glowworm.Initialize.body minPosition maxPosition)
        (List.replicate dimensions.toNat 0, rnd)).1
      Luminosity := rnd.float64 (rnd.nFloat64 + dimensions.toNat)
        * (maxLuminosity - minLuminosity) + minLuminosity }, ?_, hlen, ?_, rfl, rfl⟩
  · simp only [Glowworm.Initialize, not_lt.mpr hd, if_false, List.length_replicate]
    rw [h2]
    rfl
  · intro i hi
    rw [hget i, if_pos hi]

theorem affine_draw_mem (u lo hi : ℝ) (h0 : 0 ≤ u) (h1 : u < 1) (h : lo ≤ hi) :
    lo ≤ u * (hi - lo) + lo ∧ u * (hi - lo) + lo ≤ hi := by
  have hw : 0 ≤ hi - lo := by linarith
  constructor
  · nlinarith [mul_nonneg h0 hw]
  · nlinarith [mul_nonneg (by linarith : (0 : ℝ) ≤ 1 - u) hw]

/-- Over the reals: for `dimensions ≥ 1`, bounds with
`minPosition ≤ maxPosition` and `minLuminosity ≤ maxLuminosity`, and uniform
draws in `[0,1)`, the initialisation succeeds with exactly `dimensions`
coordinates, each within `[minPosition, maxPosition]`, and a luminosity
within `[minLuminosity, maxLuminosity]`. -/
theorem Glowworm.Initialize_within_bounds (g : Glowworm) (dimensions : Int)
    (minPosition maxPosition minLuminosity maxLuminosity : ℝ) (rnd : RandState)
    (hd : 1 ≤ dimensions) (hp : minPosition ≤ maxPosition)
    (hl : minLuminosity ≤ maxLuminosity)
    (hu : ∀ k : Nat, 0 ≤ rnd.float64 k ∧ rnd.float64 k < 1) :
    ∃ g' rnd',
      g.Initialize dimensions minPosition maxPosition minLuminosity maxLuminosity rnd
        = some (g', rnd') ∧
      (g'.Position.length : Int) = dimensions ∧
      (∀ x ∈ g'.Position, minPosition ≤ x ∧ x ≤ maxPosition) ∧
      minLuminosity ≤ g'.Luminosity ∧ g'.Luminosity ≤ maxLuminosity := by
  obtain ⟨g', he, hlen, hget, hlum, _⟩ := Glowworm.Initialize_result g dimensions minPosition
    maxPosition minLuminosity maxLuminosity rnd (by omega)
  refine ⟨g', _, he, ?_, ?_, ?_⟩
  · rw [hlen]; omega
  · intro x hx
    obtain ⟨i, hi, rfl⟩ := List.mem_iff_getElem.mp hx
    have := hget i (by omega)
    rw [List.getElem?_eq_getElem hi, Option.some_inj] at this
    rw [this]
    exact affine_draw_mem _ _ _ (hu _).1 (hu _).2 hp
  · rw [hlum]
    exact affine_draw_mem _ _ _ (hu _).1 (hu _).2 hl

/-- C6, as the code has it: `Glowworm.Initialize` does not write
`NeighborCount`. For every agent and every argument list with a non-negative
`dimensions` the call succeeds and the agent's `NeighborCount` afterwards is
its `NeighborCount` before; it is `0` for the zero value `Glowworm{}`. -/
theorem Glowworm.Initialize_keeps_NeighborCount (g : Glowworm) (dimensions : Int)
    (minPosition maxPosition minLuminosity maxLuminosity : ℝ) (rnd : RandState)
    (hd : 0 ≤ dimensions) :
    (∃ g' rnd',
      g.Initialize dimensions minPosition maxPosition minLuminosity maxLuminosity rnd
        = some (g', rnd') ∧ g'.NeighborCount = g.NeighborCount) ∧
    (∃ g' rnd',
      Glowworm.zero.Initialize dimensions minPosition maxPosition minLuminosity maxLuminosity rnd
        = some (g', rnd') ∧ g'.NeighborCount = 0) := by
  obtain ⟨g', he, _, _, _, hn⟩ := Glowworm.Initialize_result g dimensions minPosition
    maxPosition minLuminosity maxLuminosity rnd hd
  obtain ⟨z', hez, _, _, _, hnz⟩ := Glowworm.Initialize_result Glowworm.zero dimensions minPosition
    maxPosition minLuminosity maxLuminosity rnd hd
  exact ⟨⟨g', _, he, hn⟩, ⟨z', _, hez, hnz⟩⟩

theorem Glowworm.Initialize_keeps_NeighborCount_witness :
    (∃ g' rnd',
      Glowworm.Initialize { Position := [], Luminosity := 0, NeighborCount := 5 } 2 (-10) 10 0 1
        (RandState.const (1 / 2) 0) = some (g', rnd') ∧ g'.NeighborCount = 5) ∧
    (∃ g' rnd',
      Glowworm.zero.Initialize 2 (-10) 10 0 1 (RandState.const (1 / 2) 0)
        = some (g', rnd') ∧ g'.NeighborCount = 0) :=
  Glowworm.Initialize_keeps_NeighborCount
    { Position := [], Luminosity := 0, NeighborCount := 5 } 2 (-10) 10 0 1
    (RandState.const (1 / 2) 0) (by decide)

/-- C6 fails as stated: an agent whose `NeighborCount` is `5` still has
`NeighborCount` `5`, not `0`, after `Initialize(2, -10, 10, 0, 1)`. -/
theorem Glowworm.Initialize_NeighborCount_counterexample :
    ∃ g' rnd',
      Glowworm.Initialize { Position := [], Luminosity := 0, NeighborCount := 5 } 2 (-10) 10 0 1
        (RandState.const (1 / 2) 0) = some (g', rnd') ∧ g'.NeighborCount ≠ 0 := by
  obtain ⟨g', he, _, _, _, hn⟩ := Glowworm.Initialize_result
    { Position := [], Luminosity := 0, NeighborCount := 5 } 2 (-10) 10 0 1
    (RandState.const (1 / 2) 0) (by decide)
  refine ⟨g', _, he, ?_⟩
  rw [hn]
  decide

/-! ## Initialisation of the swarm -/

theorem GlowwormSwarm.Initialize.create_spec (dimensions : Int)
    (minPosition maxPosition minLuminosity maxLuminosity : ℝ) (hd : 0 ≤ dimensions)
    (l : List Glowworm) (rnd : RandState) :
    ∀ k : Nat, k ≤ l.length →
      ∃ st : List Glowworm × RandState,
        (List.range k).foldlM (GlowwormSwarm.Initialize.body dimensions minPosition
          maxPosition minLuminosity maxLuminosity) (l, rnd) = some st ∧
        st.1.length = l.length ∧
        st.2 = { rnd with nFloat64 := rnd.nFloat64 + k * (dimensions.toNat + 1) } ∧
        (∀ i : Nat, i < k → ∃ g : Glowworm, st.1[i]? = some g ∧
          g.Position.length = dimensions.toNat ∧ g.NeighborCount = 0) ∧
        (∀ i : Nat, k ≤ i → st.1[i]? = l[i]?) := by
  intro k
  induction k with
  | zero => intro _; exact ⟨(l, rnd), by simp⟩
  | succ k ih =>
    intro hk
    obtain ⟨st, hst, hlen, hrnd, hlow, hhigh⟩ := ih (by omega)
    obtain ⟨g', he, hglen, _, _, hgn⟩ := Glowworm.Initialize_result Glowworm.zero dimensions
      minPosition maxPosition minLuminosity maxLuminosity st.2 hd
    refine ⟨(st.1.set k g', { st.2 with nFloat64 := st.2.nFloat64 + dimensions.toNat + 1 }),
      ?_, ?_, ?_, ?_, ?_⟩
    · rw [List.range_succ, List.foldlM_append, hst]
      simp [GlowwormSwarm.Initialize.body, he]
    · simp [hlen]
    · rw [hrnd]
      simp only [RandState.mk.injEq, true_and, and_true]
      ring
    · intro i hi
      by_cases hik : k = i
      · subst hik
        exact ⟨g', by simp [List.getElem?_set, hlen, show k < l.length by omega], hglen,
          by rw [hgn]; rfl⟩
      · obtain ⟨g, hg, h1, h2⟩ := hlow i (by omega)
        exact ⟨g, by simp [List.getElem?_set, hik, hg], h1, h2⟩
    · intro i hi
      have hik : k ≠ i := by omega
      simp [List.getElem?_set, hik, hhigh i (by omega)]

/-- The result of `GlowwormSwarm.Initialize` for a non-negative `swarmSize`,
when `dimensions` is non-negative or no agent is created. -/
theorem GlowwormSwarm.Initialize_population (s : GlowwormSwarm) (swarmSize dimensions : Int)
    (minPosition maxPosition minLuminosity maxLuminosity : ℝ) (rnd : RandState)
    (hs : 0 ≤ swarmSize) (hd : 0 ≤ dimensions ∨ swarmSize = 0) :
    ∃ gs : List Glowworm, ∃ rnd' : RandState,
      s.Initialize swarmSize dimensions minPosition maxPosition minLuminosity maxLuminosity rnd
        = some ({ s with Glowworms := gs }, rnd') ∧
      gs.length = swarmSize.toNat ∧
      (∀ g ∈ gs, g.Position.length = dimensions.toNat ∧ g.NeighborCount = 0) := by
  rcases hd with hd | h0
  · obtain ⟨st, hst, hlen, _, hlow, _⟩ := GlowwormSwarm.Initialize.create_spec dimensions
      minPosition maxPosition minLuminosity maxLuminosity hd
      (List.replicate swarmSize.toNat Glowworm.zero) rnd
      (List.replicate swarmSize.toNat Glowworm.zero).length le_rfl
    simp only [List.length_replicate] at hst hlen hlow
    refine ⟨st.1, st.2, ?_, hlen, ?_⟩
    · simp only [GlowwormSwarm.Initialize, not_lt.mpr hs, if_false, List.length_replicate]
      simp [hst]
    · intro g hg
      obtain ⟨i, hi, rfl⟩ := List.mem_iff_getElem.mp hg
      obtain ⟨g', hg', h1, h2⟩ := hlow i (by simpa [hlen] using hi)
      rw [List.getElem?_eq_getElem hi, Option.some_inj] at hg'
      rw [hg']
      exact ⟨h1, h2⟩
  · subst h0
    exact ⟨[], rnd, by simp [GlowwormSwarm.Initialize], by simp, by simp⟩

/-! ## One pass of `Update` -/

theorem GlowwormSwarm.Update.motion_loop_spec (f : ℝ) (l : List ℝ) (rnd : RandState) :
    ∀ k : Nat, k ≤ l.length →
      ∃ st : List ℝ × RandState,
        (List.range k).foldlM (GlowwormSwarm.Update.motion f) (l, rnd) = some st ∧
        st.2 = { rnd with nNormFloat64 := rnd.nNormFloat64 + k } ∧
        st.1.length = l.length ∧
        ∀ i : Nat, st.1[i]? =
          if i < k then
            some (l.getD i 0 + rnd.normFloat64 (rnd.nNormFloat64 + i) * f)
          else l[i]? := by
  intro k
  induction k with
  | zero => intro _; exact ⟨(l, rnd), by simp⟩
  | succ k ih =>
    intro hk
    obtain ⟨st, hst, hrnd, hlen, hget⟩ := ih (by omega)
    have hkl : k < l.length := by omega
    have hk0 : st.1[k]? = some (l[k]) := by
      rw [hget k]; simp [List.getElem?_eq_getElem hkl]
    refine ⟨(st.1.set k (l[k] + st.2.NormFloat64.1 * f), st.2.NormFloat64.2), ?_, ?_, ?_, ?_⟩
    · rw [List.range_succ, List.foldlM_append, hst]
      simp [GlowwormSwarm.Update.motion, hk0]
    · rw [hrnd]; simp [RandState.NormFloat64, Nat.add_assoc]
    · simp [hlen]
    · intro i
      rw [List.getElem?_set, hlen, hrnd]
      by_cases hik : k = i
      · subst hik
        simp [RandState.NormFloat64, hkl, List.getD_eq_getElem _ _ hkl]
      · rw [if_neg hik, hget i]
        by_cases hlt : i < k
        · simp [hlt, show i < k + 1 by omega]
        · simp [hlt, show ¬ i < k + 1 by omega]

/-- The position left by the motion loop of `Update`: coordinate `i` receives
the `i`-th next normal draw scaled by the factor `f`. -/
theorem GlowwormSwarm.Update.motion_loop_eq (f : ℝ) (l : List ℝ) (rnd : RandState) :
    (List.range l.length).foldlM (GlowwormSwarm.Update.motion f) (l, rnd)
      = some ((List.range l.length).map
            (fun i => l.getD i 0 + rnd.normFloat64 (rnd.nNormFloat64 + i) * f),
          { rnd with nNormFloat64 := rnd.nNormFloat64 + l.length }) := by
  obtain ⟨st, hst, hrnd, hlen, hget⟩ :=
    GlowwormSwarm.Update.motion_loop_spec f l rnd l.length le_rfl
  rw [hst]
  congr 1
  refine Prod.ext ?_ hrnd
  apply List.ext_getElem?
  intro i
  rw [hget i]
  by_cases hi : i < l.length
  · simp [hi, List.getElem?_range hi]
  · have hr : (List.range l.length)[i]? = none :=
      List.getElem?_eq_none (by simpa using hi)
    simp [hi, hr, List.getElem?_eq_none (not_lt.mp hi)]

theorem GlowwormSwarm.Update.body_turn (s : GlowwormSwarm) (gs : List Glowworm)
    (rnd : RandState) (D i : Nat) (hdim : ∀ x ∈ gs, x.Position.length = D)
    (hi : i < gs.length) :
    GlowwormSwarm.Update.body s (gs, rnd) i
      = some (gs.set i (s.turn gs[i] (strictNeighbors gs i s.PerceptionRadius).card rnd),
          { rnd with nNormFloat64 := rnd.nNormFloat64 + D }) := by
  have hD : (gs[i]).Position.length = D := hdim _ (List.getElem_mem hi)
  simp only [GlowwormSwarm.Update.body,
    Glowworm.UpdateNeighborCount_eq gs D i s.PerceptionRadius hdim hi, Option.some_bind,
    Option.bind_eq_bind, List.getElem?_set, hi, if_true]
  rw [GlowwormSwarm.Update.motion_loop_eq]
  simp [GlowwormSwarm.turn, hD]

theorem GlowwormSwarm.turn_Position_length (s : GlowwormSwarm) (g : Glowworm) (count : Nat)
    (rnd : RandState) : (s.turn g count rnd).Position.length = g.Position.length := by
  simp [GlowwormSwarm.turn]

theorem GlowwormSwarm.sweep_length (s : GlowwormSwarm) (D : Nat) (gs : List Glowworm)
    (rnd : RandState) (n : Nat) : (s.sweep D gs rnd n).length = gs.length := by
  induction n with
  | zero => rfl
  | succ n ih => simp [GlowwormSwarm.sweep, ih]

theorem GlowwormSwarm.sweep_dim (s : GlowwormSwarm) (D : Nat) (gs : List Glowworm)
    (rnd : RandState) (hdim : ∀ x ∈ gs, x.Position.length = D) (n : Nat) (hn : n ≤ gs.length) :
    ∀ x ∈ s.sweep D gs rnd n, x.Position.length = D := by
  induction n with
  | zero => exact hdim
  | succ n ih =>
    intro x hx
    have hlen := GlowwormSwarm.sweep_length s D gs rnd n
    have hnl : n < (s.sweep D gs rnd n).length := by omega
    rcases List.mem_or_eq_of_mem_set hx with h | h
    · exact ih (by omega) x h
    · rw [h, GlowwormSwarm.turn_Position_length, List.getD_eq_getElem _ _ hnl]
      exact ih (by omega) _ (List.getElem_mem hnl)

/-- The loop of `Update` over the first `n` agents computes `sweep` and
consumes `n * D` normal draws. -/
theorem GlowwormSwarm.Update.loop_sweep (s : GlowwormSwarm) (D : Nat) (gs : List Glowworm)
    (rnd : RandState) (hdim : ∀ x ∈ gs, x.Position.length = D) :
    ∀ n : Nat, n ≤ gs.length →
      (List.range n).foldlM (GlowwormSwarm.Update.body s) (gs, rnd)
        = some (s.sweep D gs rnd n,
            { rnd with nNormFloat64 := rnd.nNormFloat64 + n * D }) := by
  intro n
  induction n with
  | zero => intro _; simp [GlowwormSwarm.sweep]
  | succ n ih =>
    intro hn
    have hlen := GlowwormSwarm.sweep_length s D gs rnd n
    have hnl : n < (s.sweep D gs rnd n).length := by omega
    rw [List.range_succ, List.foldlM_append, ih (by omega)]
    simp only [Option.some_bind, List.foldlM_cons, List.foldlM_nil, Option.bind_eq_bind]
    rw [GlowwormSwarm.Update.body_turn s _ _ D n
      (GlowwormSwarm.sweep_dim s D gs rnd hdim n (by omega)) hnl]
    simp [GlowwormSwarm.sweep, List.getElem?_eq_getElem hnl, Nat.add_assoc, Nat.succ_mul]

/-- The result of `Update` on a swarm whose positions all have length `D`. -/
theorem GlowwormSwarm.Update_eq (s : GlowwormSwarm) (D : Nat) (rnd : RandState)
    (hdim : ∀ x ∈ s.Glowworms, x.Position.length = D) :
    s.Update rnd
      = some ({ s with Glowworms := s.sweep D s.Glowworms rnd s.Glowworms.length },
          { rnd with nNormFloat64 := rnd.nNormFloat64 + s.Glowworms.length * D }) := by
  simp [GlowwormSwarm.Update, GlowwormSwarm.Update.loop_sweep s D s.Glowworms rnd hdim _ le_rfl]

theorem GlowwormSwarm.sweep_getElem?_ge (s : GlowwormSwarm) (D : Nat) (gs : List Glowworm)
    (rnd : RandState) (n j : Nat) (h : n ≤ j) : (s.sweep D gs rnd n)[j]? = gs[j]? := by
  induction n with
  | zero => rfl
  | succ n ih =>
    have hne : n ≠ j := by omega
    simp [GlowwormSwarm.sweep, List.getElem?_set, hne, ih (by omega)]

theorem GlowwormSwarm.sweep_getElem?_lt (s : GlowwormSwarm) (D : Nat) (gs : List Glowworm)
    (rnd : RandState) (n j : Nat) (h : j < n) (hj : j < gs.length) :
    (s.sweep D gs rnd n)[j]? = some
      (s.turn gs[j] (strictNeighbors (s.sweep D gs rnd j) j s.PerceptionRadius).card
        { rnd with nNormFloat64 := rnd.nNormFloat64 + j * D }) := by
  induction n with
  | zero => omega
  | succ n ih =>
    have hlen := GlowwormSwarm.sweep_length s D gs rnd n
    by_cases hnj : n = j
    · subst hnj
      have h0 := GlowwormSwarm.sweep_getElem?_ge s D gs rnd n n le_rfl
      simp [GlowwormSwarm.sweep, List.getElem?_set, hlen, hj, List.getD_eq_getElem?_getD, h0,
        List.getElem?_eq_getElem hj]
    · simp [GlowwormSwarm.sweep, List.getElem?_set, hnj, ih (by omega)]

theorem GlowwormSwarm.turn_Position_of_zero (s : GlowwormSwarm) (g : Glowworm) (count : Nat)
    (rnd : RandState) (hz : s.RandomMotionFactor = 0) :
    (s.turn g count rnd).Position = g.Position := by
  apply List.ext_getElem?
  intro i
  by_cases hi : i < g.Position.length
  · simp [GlowwormSwarm.turn, hz, List.getElem?_range hi, List.getElem?_eq_getElem hi]
  · have hr : (List.range g.Position.length)[i]? = none :=
      List.getElem?_eq_none (by simpa using hi)
    simp [GlowwormSwarm.turn, hr, List.getElem?_eq_none (not_lt.mp hi)]

theorem GlowwormSwarm.turn_Luminosity_le (s : GlowwormSwarm) (g : Glowworm) (count : Nat)
    (rnd : RandState) (ha : 0 ≤ s.AttractionFactor) :
    g.Luminosity ≤ (s.turn g count rnd).Luminosity := by
  have hc : (0 : ℝ) ≤ ((count : Int) : ℝ) := by exact_mod_cast Nat.zero_le count
  simp only [GlowwormSwarm.turn]
  nlinarith [mul_nonneg ha hc]

/-- After a whole pass every agent is the result of its own turn. -/
theorem GlowwormSwarm.sweep_full (s : GlowwormSwarm) (D : Nat) (gs : List Glowworm)
    (rnd : RandState) (j : Nat) (hj : j < gs.length) :
    (s.sweep D gs rnd gs.length)[j]? = some
      (s.turn gs[j] (strictNeighbors (s.sweep D gs rnd j) j s.PerceptionRadius).card
        { rnd with nNormFloat64 := rnd.nNormFloat64 + j * D }) :=
  GlowwormSwarm.sweep_getElem?_lt s D gs rnd gs.length j hj hj

theorem GlowwormSwarm.sweep_Position_of_zero (s : GlowwormSwarm) (D : Nat)
    (gs : List Glowworm) (rnd : RandState) (hz : s.RandomMotionFactor = 0) :
    (s.sweep D gs rnd gs.length).map Glowworm.Position = gs.map Glowworm.Position := by
  apply List.ext_getElem?
  intro j
  by_cases hj : j < gs.length
  · simp [GlowwormSwarm.sweep_full s D gs rnd j hj, List.getElem?_eq_getElem hj,
      GlowwormSwarm.turn_Position_of_zero s _ _ _ hz]
  · have h1 : (s.sweep D gs rnd gs.length)[j]? = none :=
      List.getElem?_eq_none (by rw [GlowwormSwarm.sweep_length]; omega)
    simp [h1, List.getElem?_eq_none (not_lt.mp hj)]

theorem GlowwormSwarm.run_succ_right (k : Nat) :
    ∀ (s : GlowwormSwarm) (rnd : RandState),
      GlowwormSwarm.run (k + 1) s rnd
        = (GlowwormSwarm.run k s rnd).bind (fun out => out.1.Update out.2) := by
  induction k with
  | zero =>
    intro s rnd
    cases h : s.Update rnd <;> simp [GlowwormSwarm.run, h]
  | succ k ih =>
    intro s rnd
    cases h : s.Update rnd with
    | none => simp [GlowwormSwarm.run, h]
    | some out =>
      have h1 : GlowwormSwarm.run (k + 1 + 1) s rnd = GlowwormSwarm.run (k + 1) out.1 out.2 := by
        rw [GlowwormSwarm.run, h]; rfl
      have h2 : GlowwormSwarm.run (k + 1) s rnd = GlowwormSwarm.run k out.1 out.2 := by
        rw [GlowwormSwarm.run, h]; rfl
      rw [h1, h2, ih]

/-- Any number of `Update` calls succeeds on a swarm whose positions all have
length `D`, and keeps the population size, the dimension and the three
parameters. -/
theorem GlowwormSwarm.run_spec (D : Nat) (k : Nat) :
    ∀ (s : GlowwormSwarm) (rnd : RandState), (∀ x ∈ s.Glowworms, x.Position.length = D) →
      ∃ gs rnd', GlowwormSwarm.run k s rnd = some ({ s with Glowworms := gs }, rnd') ∧
        gs.length = s.Glowworms.length ∧ (∀ x ∈ gs, x.Position.length = D) := by
  induction k with
  | zero => intro s rnd hdim; exact ⟨s.Glowworms, rnd, rfl, rfl, hdim⟩
  | succ k ih =>
    intro s rnd hdim
    have hd1 := GlowwormSwarm.sweep_dim s D s.Glowworms rnd hdim s.Glowworms.length le_rfl
    obtain ⟨gs, rnd', hrun, hlen, hd⟩ := ih
      { s with Glowworms := s.sweep D s.Glowworms rnd s.Glowworms.length }
      { rnd with nNormFloat64 := rnd.nNormFloat64 + s.Glowworms.length * D } hd1
    refine ⟨gs, rnd', ?_, ?_, hd⟩
    · rw [GlowwormSwarm.run, GlowwormSwarm.Update_eq s D rnd hdim]
      exact hrun
    · rw [hlen]
      exact GlowwormSwarm.sweep_length s D s.Glowworms rnd _

theorem fixture3_dim : ∀ x ∈ fixture3, x.Position.length = 2 := by
  intro x hx
  simp [fixture3] at hx
  rcases hx with rfl | rfl | rfl <;> rfl

/-! ## Invariants of the swarm -/

/-- C7: for every `swarmSize ≥ 0` (and a `dimensions` that `make` accepts),
`GlowwormSwarm.Initialize` yields a swarm of exactly `swarmSize` agents, and
after every further sequence of `k` `Update` calls, whatever the random
draws, the swarm still holds exactly `swarmSize` agents. -/
theorem GlowwormSwarm.population_size_invariant (s : GlowwormSwarm)
    (swarmSize dimensions : Int)
    (minPosition maxPosition minLuminosity maxLuminosity : ℝ) (rnd : RandState)
    (hs : 0 ≤ swarmSize) (hd : 0 ≤ dimensions ∨ swarmSize = 0) :
    ∃ s0 rnd0,
      s.Initialize swarmSize dimensions minPosition maxPosition minLuminosity maxLuminosity rnd
        = some (s0, rnd0) ∧
      (s0.Glowworms.length : Int) = swarmSize ∧
      ∀ (k : Nat) (rnd1 : RandState), ∃ sk rndk,
        GlowwormSwarm.run k s0 rnd1 = some (sk, rndk) ∧
        (sk.Glowworms.length : Int) = swarmSize := by
  obtain ⟨gs, rnd0, he, hlen, hdim⟩ := GlowwormSwarm.Initialize_population s swarmSize dimensions
    minPosition maxPosition minLuminosity maxLuminosity rnd hs hd
  refine ⟨_, rnd0, he, ?_, ?_⟩
  · simp only [hlen]; omega
  · intro k rnd1
    obtain ⟨gk, rndk, hrun, hk, _⟩ := GlowwormSwarm.run_spec dimensions.toNat k
      { s with Glowworms := gs } rnd1 (fun x hx => (hdim x hx).1)
    refine ⟨_, rndk, hrun, ?_⟩
    simp only [hk, hlen]; omega

theorem GlowwormSwarm.population_size_invariant_witness :
    ∃ s0 rnd0,
      driverSwarm.Initialize 10 2 (-10) 10 0 1 (RandState.const (1 / 2) 1) = some (s0, rnd0) ∧
      (s0.Glowworms.length : Int) = 10 ∧
      ∀ (k : Nat) (rnd1 : RandState), ∃ sk rndk,
        GlowwormSwarm.run k s0 rnd1 = some (sk, rndk) ∧
        (sk.Glowworms.length : Int) = 10 :=
  GlowwormSwarm.population_size_invariant driverSwarm 10 2 (-10) 10 0 1
    (RandState.const (1 / 2) 1) (by decide) (Or.inl (by decide))

/-- C8: when `AttractionFactor ≥ 0`, one `Update` call on a swarm whose
positions all have the same length succeeds and leaves every agent with a
`Luminosity` at least its `Luminosity` before the call; hence along any run
the luminosities after `t + 1` calls are at least those after `t` calls. -/
theorem GlowwormSwarm.Update_luminosity_nondecreasing (s : GlowwormSwarm) (D : Nat)
    (rnd : RandState) (hdim : ∀ x ∈ s.Glowworms, x.Position.length = D)
    (ha : 0 ≤ s.AttractionFactor) :
    (∃ s1 rnd1, s.Update rnd = some (s1, rnd1) ∧
      s1.Glowworms.length = s.Glowworms.length ∧
      ∀ (i : Nat) (g g1 : Glowworm), s.Glowworms[i]? = some g → s1.Glowworms[i]? = some g1 →
        g.Luminosity ≤ g1.Luminosity) ∧
    (∀ t : Nat, ∃ st rt st1 rt1,
      GlowwormSwarm.run t s rnd = some (st, rt) ∧
      GlowwormSwarm.run (t + 1) s rnd = some (st1, rt1) ∧
      st1.Glowworms.length = st.Glowworms.length ∧
      ∀ (i : Nat) (g g1 : Glowworm), st.Glowworms[i]? = some g → st1.Glowworms[i]? = some g1 →
        g.Luminosity ≤ g1.Luminosity) := by
  have step : ∀ (u : GlowwormSwarm) (r : RandState),
      (∀ x ∈ u.Glowworms, x.Position.length = D) → 0 ≤ u.AttractionFactor →
      ∃ u1 r1, u.Update r = some (u1, r1) ∧ u1.Glowworms.length = u.Glowworms.length ∧
        ∀ (i : Nat) (g g1 : Glowworm), u.Glowworms[i]? = some g → u1.Glowworms[i]? = some g1 →
          g.Luminosity ≤ g1.Luminosity := by
    intro u r hu hau
    refine ⟨_, _, GlowwormSwarm.Update_eq u D r hu,
      GlowwormSwarm.sweep_length u D u.Glowworms r _, ?_⟩
    intro i g g1 hg hg1
    obtain ⟨hi, rfl⟩ := List.getElem?_eq_some_iff.mp hg
    simp only [GlowwormSwarm.sweep_full u D u.Glowworms r i hi, Option.some_inj] at hg1
    rw [← hg1]
    exact GlowwormSwarm.turn_Luminosity_le u _ _ _ hau
  refine ⟨step s rnd hdim ha, ?_⟩
  intro t
  obtain ⟨gs, rt, hrun, _, hdt⟩ := GlowwormSwarm.run_spec D t s rnd hdim
  obtain ⟨u1, r1, hu, hl, hmono⟩ := step { s with Glowworms := gs } rt hdt ha
  refine ⟨_, rt, u1, r1, hrun, ?_, hl, hmono⟩
  rw [GlowwormSwarm.run_succ_right, hrun]
  exact hu

theorem GlowwormSwarm.Update_luminosity_nondecreasing_witness :
    (∃ s1 rnd1, (fixtureSwarm 2 (1 / 10) (1 / 10)).Update (RandState.const 0 1) = some (s1, rnd1) ∧
      s1.Glowworms.length = (fixtureSwarm 2 (1 / 10) (1 / 10)).Glowworms.length ∧
      ∀ (i : Nat) (g g1 : Glowworm), (fixtureSwarm 2 (1 / 10) (1 / 10)).Glowworms[i]? = some g →
        s1.Glowworms[i]? = some g1 → g.Luminosity ≤ g1.Luminosity) ∧
    (∀ t : Nat, ∃ st rt st1 rt1,
      GlowwormSwarm.run t (fixtureSwarm 2 (1 / 10) (1 / 10)) (RandState.const 0 1) = some (st, rt) ∧
      GlowwormSwarm.run (t + 1) (fixtureSwarm 2 (1 / 10) (1 / 10)) (RandState.const 0 1)
        = some (st1, rt1) ∧
      st1.Glowworms.length = st.Glowworms.length ∧
      ∀ (i : Nat) (g g1 : Glowworm), st.Glowworms[i]? = some g → st1.Glowworms[i]? = some g1 →
        g.Luminosity ≤ g1.Luminosity) :=
  GlowwormSwarm.Update_luminosity_nondecreasing (fixtureSwarm 2 (1 / 10) (1 / 10)) 2
    (RandState.const 0 1) fixture3_dim (by norm_num [fixtureSwarm])

/-- C9: with `RandomMotionFactor = 0`, any number of `Update` calls on a swarm
whose positions all have the same length succeeds, whatever the normal
draws, and leaves every agent's `Position` equal, coordinate for coordinate,
to its `Position` before the calls. -/
theorem GlowwormSwarm.positions_invariant_of_zero_motion (D : Nat) (k : Nat) :
    ∀ (s : GlowwormSwarm) (rnd : RandState), (∀ x ∈ s.Glowworms, x.Position.length = D) →
      s.RandomMotionFactor = 0 →
      ∃ sk rndk, GlowwormSwarm.run k s rnd = some (sk, rndk) ∧
        sk.Glowworms.map Glowworm.Position = s.Glowworms.map Glowworm.Position := by
  induction k with
  | zero => intro s rnd _ _; exact ⟨s, rnd, rfl, rfl⟩
  | succ k ih =>
    intro s rnd hdim hz
    have hd1 := GlowwormSwarm.sweep_dim s D s.Glowworms rnd hdim s.Glowworms.length le_rfl
    obtain ⟨sk, rndk, hrun, hpos⟩ := ih
      { s with Glowworms := s.sweep D s.Glowworms rnd s.Glowworms.length }
      { rnd with nNormFloat64 := rnd.nNormFloat64 + s.Glowworms.length * D } hd1 hz
    refine ⟨sk, rndk, ?_, ?_⟩
    · rw [GlowwormSwarm.run, GlowwormSwarm.Update_eq s D rnd hdim]
      exact hrun
    · rw [hpos]
      exact GlowwormSwarm.sweep_Position_of_zero s D s.Glowworms rnd hz

theorem GlowwormSwarm.positions_invariant_of_zero_motion_witness :
    ∃ sk rndk, GlowwormSwarm.run 100 (fixtureSwarm 2 (1 / 10) 0) (RandState.const 0 1)
        = some (sk, rndk) ∧
      sk.Glowworms.map Glowworm.Position = [[0, 0], [1, 0], [5, 0]] :=
  GlowwormSwarm.positions_invariant_of_zero_motion 2 100 (fixtureSwarm 2 (1 / 10) 0)
    (RandState.const 0 1) fixture3_dim rfl

/-! ## The neighbour test is strict -/

theorem fixture2_Distance :
    Glowworm.Distance { Position := [0, 0], Luminosity := 0, NeighborCount := 0 }
        { Position := [2, 0], Luminosity := 0, NeighborCount := 0 } = some 2 ∧
    Glowworm.Distance { Position := [2, 0], Luminosity := 0, NeighborCount := 0 }
        { Position := [0, 0], Luminosity := 0, NeighborCount := 0 } = some 2 := by
  have h : Real.sqrt 4 = 2 := by
    rw [show (4 : ℝ) = 2 ^ 2 by norm_num]
    exact Real.sqrt_sq (by norm_num)
  constructor
  · rw [Glowworm.Distance_of_le _ _ (le_refl 2)]
    norm_num [sqDiffSum, Finset.sum_range_succ, h]
  · rw [Glowworm.Distance_of_le _ _ (le_refl 2)]
    norm_num [sqDiffSum, Finset.sum_range_succ, h]

open Classical in
/-- C10: the neighbour test is strict. On a population whose position vectors
all have the same length, if the agent at index `j` is at `Distance` exactly
`r` from the agent at index `i`, then the loop iteration for `j` leaves the
count unchanged, and the `NeighborCount` stored by `UpdateNeighborCount` is
the number of agents other than `j` (and other than `i`) at `Distance`
strictly less than `r`. -/
theorem Glowworm.UpdateNeighborCount_excludes_boundary (glowworms : List Glowworm)
    (D i j : Nat) (r : ℝ) (hdim : ∀ x ∈ glowworms, x.Position.length = D)
    (hi : i < glowworms.length) (hj : j < glowworms.length)
    (hd : (glowworms[i]).Distance glowworms[j] = some r) :
    (∀ count : Int,
      Glowworm.UpdateNeighborCount.body glowworms i glowworms[i] r count j = some count) ∧
    ∃ out g, Glowworm.UpdateNeighborCount glowworms i r = some out ∧ out[i]? = some g ∧
      g.NeighborCount = (((Finset.range glowworms.length).filter
        (fun k => k ≠ j ∧ isStrictNeighbor glowworms i r k)).card : Int) := by
  have hnot : ¬ isStrictNeighbor glowworms i r j := by
    rintro ⟨_, g, other, d, hg, ho, hdist, hlt⟩
    rw [List.getElem?_eq_getElem hi, Option.some_inj] at hg
    rw [List.getElem?_eq_getElem hj, Option.some_inj] at ho
    subst hg; subst ho
    rw [hd, Option.some_inj] at hdist
    subst hdist
    exact lt_irrefl _ hlt
  constructor
  · intro count
    rw [Glowworm.UpdateNeighborCount.body_count glowworms D i _ r hdim
      (List.getElem?_eq_getElem hi) count j hj, if_neg hnot, add_zero]
  · refine ⟨_, { glowworms[i] with
        NeighborCount := ((strictNeighbors glowworms i r).card : Int) },
      Glowworm.UpdateNeighborCount_eq glowworms D i r hdim hi, ?_, ?_⟩
    · simp [List.getElem?_set, hi]
    · have hf : (Finset.range glowworms.length).filter
          (fun k => k ≠ j ∧ isStrictNeighbor glowworms i r k)
          = strictNeighbors glowworms i r := by
        unfold strictNeighbors
        apply Finset.filter_congr
        intro k _
        constructor
        · exact fun h => h.2
        · intro h
          refine ⟨?_, h⟩
          rintro rfl
          exact hnot h
      rw [hf]

theorem Glowworm.UpdateNeighborCount_excludes_boundary_witness :
    (∃ out g, Glowworm.UpdateNeighborCount fixture2 0 2 = some out ∧ out[0]? = some g ∧
      g.NeighborCount = 0) ∧
    (∃ out g, Glowworm.UpdateNeighborCount fixture2 1 2 = some out ∧ out[1]? = some g ∧
      g.NeighborCount = 0) := by
  have hdim : ∀ x ∈ fixture2, x.Position.length = 2 := by
    intro x hx
    simp [fixture2] at hx
    rcases hx with rfl | rfl <;> rfl
  have hr : Finset.range fixture2.length = {0, 1} := by
    ext x; simp [fixture2]; omega
  have hself : ∀ k : Nat, ¬ isStrictNeighbor fixture2 k 2 k := fun k h => h.1 rfl
  obtain ⟨_, out0, g0, h0, hg0, hc0⟩ := Glowworm.UpdateNeighborCount_excludes_boundary
    fixture2 2 0 1 2 hdim (by decide) (by decide) fixture2_Distance.1
  obtain ⟨_, out1, g1, h1, hg1, hc1⟩ := Glowworm.UpdateNeighborCount_excludes_boundary
    fixture2 2 1 0 2 hdim (by decide) (by decide) fixture2_Distance.2
  refine ⟨⟨out0, g0, h0, hg0, ?_⟩, ⟨out1, g1, h1, hg1, ?_⟩⟩
  · rw [hc0, hr]
    simp [Finset.filter_insert, Finset.filter_singleton, hself]
  · rw [hc1, hr]
    simp [Finset.filter_insert, Finset.filter_singleton, hself]

/-! ## Self-exclusion is by identity -/

theorem Glowworm.Distance_of_same_Position (a b : Glowworm) (h : a.Position = b.Position) :
    a.Distance b = some 0 := by
  rw [Glowworm.Distance_of_le a b (by rw [h]),
    (sqDiffSum_eq_zero_iff a.Position b.Position (by rw [h])).mpr h, Real.sqrt_zero]

open Classical in
theorem mem_strictNeighbors (glowworms : List Glowworm) (i j : Nat) (r : ℝ) :
    j ∈ strictNeighbors glowworms i r ↔
      j < glowworms.length ∧ isStrictNeighbor glowworms i r j := by
  unfold strictNeighbors
  rw [Finset.mem_filter, Finset.mem_range]

/-- C11: self-exclusion is by identity, not by value. On a population whose
position vectors all have the same length and for a radius `r > 0`, the loop
iteration of `UpdateNeighborCount` for the agent itself leaves the count
unchanged, while the iteration for a different agent `j` with the same
`Position` adds one: `j` is among the counted neighbours and `i` is not. -/
theorem Glowworm.UpdateNeighborCount_self_exclusion_by_identity (glowworms : List Glowworm)
    (D i j : Nat) (r : ℝ) (hdim : ∀ x ∈ glowworms, x.Position.length = D)
    (hi : i < glowworms.length) (hj : j < glowworms.length) (hne : j ≠ i)
    (hpos : (glowworms[j]).Position = (glowworms[i]).Position) (hr : 0 < r) :
    (∀ count : Int,
      Glowworm.UpdateNeighborCount.body glowworms i glowworms[i] r count i = some count) ∧
    (∀ count : Int,
      Glowworm.UpdateNeighborCount.body glowworms i glowworms[i] r count j
        = some (count + 1)) ∧
    ∃ out g, Glowworm.UpdateNeighborCount glowworms i r = some out ∧ out[i]? = some g ∧
      g.NeighborCount = ((strictNeighbors glowworms i r).card : Int) ∧
      j ∈ strictNeighbors glowworms i r ∧ i ∉ strictNeighbors glowworms i r ∧
      1 ≤ g.NeighborCount := by
  have hself : ¬ isStrictNeighbor glowworms i r i := fun h => h.1 rfl
  have hother : isStrictNeighbor glowworms i r j :=
    ⟨hne, glowworms[i], glowworms[j], 0, List.getElem?_eq_getElem hi,
      List.getElem?_eq_getElem hj, Glowworm.Distance_of_same_Position _ _ hpos.symm, hr⟩
  have hmem : j ∈ strictNeighbors glowworms i r :=
    (mem_strictNeighbors glowworms i j r).mpr ⟨hj, hother⟩
  refine ⟨?_, ?_, ?_⟩
  · intro count
    rw [Glowworm.UpdateNeighborCount.body_count glowworms D i _ r hdim
      (List.getElem?_eq_getElem hi) count i hi, if_neg hself, add_zero]
  · intro count
    rw [Glowworm.UpdateNeighborCount.body_count glowworms D i _ r hdim
      (List.getElem?_eq_getElem hi) count j hj, if_pos hother]
  · refine ⟨_, { glowworms[i] with
        NeighborCount := ((strictNeighbors glowworms i r).card : Int) },
      Glowworm.UpdateNeighborCount_eq glowworms D i r hdim hi, ?_, rfl, hmem, ?_, ?_⟩
    · simp [List.getElem?_set, hi]
    · exact fun h => hself ((mem_strictNeighbors glowworms i i r).mp h).2
    · have : 0 < (strictNeighbors glowworms i r).card := Finset.card_pos.mpr ⟨j, hmem⟩
      show (1 : Int) ≤ ((strictNeighbors glowworms i r).card : Int)
      exact_mod_cast this

theorem fixtureTwins_dim : ∀ x ∈ fixtureTwins, x.Position.length = 2 := by
  intro x hx
  simp [fixtureTwins] at hx
  subst hx
  rfl

theorem strictNeighbors_subset (glowworms : List Glowworm) (i : Nat) (r : ℝ) :
    strictNeighbors glowworms i r ⊆ (Finset.range glowworms.length).erase i := by
  intro j hj
  obtain ⟨h1, h2⟩ := (mem_strictNeighbors glowworms i j r).mp hj
  exact Finset.mem_erase.mpr ⟨h2.1, Finset.mem_range.mpr h1⟩

theorem strictNeighbors_card_le (glowworms : List Glowworm) (i : Nat) (r : ℝ)
    (hi : i < glowworms.length) :
    (strictNeighbors glowworms i r).card ≤ glowworms.length - 1 := by
  have h := Finset.card_le_card (strictNeighbors_subset glowworms i r)
  rwa [Finset.card_erase_of_mem (Finset.mem_range.mpr hi), Finset.card_range] at h

theorem Glowworm.UpdateNeighborCount_self_exclusion_by_identity_witness :
    (∃ out g, Glowworm.UpdateNeighborCount fixtureTwins 0 (1 / 2) = some out ∧
      out[0]? = some g ∧ g.NeighborCount = 1) ∧
    (∃ out g, Glowworm.UpdateNeighborCount fixtureTwins 1 (1 / 2) = some out ∧
      out[1]? = some g ∧ g.NeighborCount = 1) := by
  obtain ⟨_, _, out0, g0, h0, hg0, hc0, _, _, hge0⟩ :=
    Glowworm.UpdateNeighborCount_self_exclusion_by_identity fixtureTwins 2 0 1 (1 / 2)
      fixtureTwins_dim (by decide) (by decide) (by decide) rfl (by norm_num)
  obtain ⟨_, _, out1, g1, h1, hg1, hc1, _, _, hge1⟩ :=
    Glowworm.UpdateNeighborCount_self_exclusion_by_identity fixtureTwins 2 1 0 (1 / 2)
      fixtureTwins_dim (by decide) (by decide) (by decide) rfl (by norm_num)
  have hle0 := strictNeighbors_card_le fixtureTwins 0 (1 / 2) (by decide)
  have hle1 := strictNeighbors_card_le fixtureTwins 1 (1 / 2) (by decide)
  have hlen : fixtureTwins.length = 2 := rfl
  refine ⟨⟨out0, g0, h0, hg0, ?_⟩, ⟨out1, g1, h1, hg1, ?_⟩⟩
  · rw [hc0] at hge0 ⊢; omega
  · rw [hc1] at hge1 ⊢; omega

/-! ## `GlowwormSwarm.Initialize` on a non-positive size -/

/-- C12 fails as stated: `GlowwormSwarm.Initialize` with `swarmSize = -1` does
not complete, `make([]*Glowworm, -1)` panics. -/
theorem GlowwormSwarm.Initialize_negative_counterexample :
    driverSwarm.Initialize (-1) 2 (-10) 10 0 1 (RandState.const (1 / 2) 0) = none := by
  simp [GlowwormSwarm.Initialize]

/-- C12, as the code has it: for `swarmSize = 0` `GlowwormSwarm.Initialize`
completes, whatever the other arguments, with an empty population and without
consuming a draw; for a negative `swarmSize` it panics in `make`. -/
theorem GlowwormSwarm.Initialize_nonpositive (s : GlowwormSwarm) (swarmSize dimensions : Int)
    (minPosition maxPosition minLuminosity maxLuminosity : ℝ) (rnd : RandState)
    (h : swarmSize ≤ 0) :
    s.Initialize swarmSize dimensions minPosition maxPosition minLuminosity maxLuminosity rnd
      = if swarmSize = 0 then some ({ s with Glowworms := [] }, rnd) else none := by
  by_cases h0 : swarmSize = 0
  · subst h0
    simp [GlowwormSwarm.Initialize]
  · have hneg : swarmSize < 0 := by omega
    simp [GlowwormSwarm.Initialize, hneg, h0]

theorem GlowwormSwarm.Initialize_nonpositive_witness :
    driverSwarm.Initialize 0 (-3) (-10) 10 0 1 (RandState.const (1 / 2) 0)
      = some ({ driverSwarm with Glowworms := [] }, RandState.const (1 / 2) 0) := by
  have h := GlowwormSwarm.Initialize_nonpositive driverSwarm 0 (-3) (-10) 10 0 1
    (RandState.const (1 / 2) 0) (by decide)
  simpa using h

/-! ## Determinism under an injected random source -/

theorem RandState.sameDraws_refl (a : RandState) : a.sameDraws a :=
  ⟨fun _ => rfl, fun _ => rfl⟩

theorem RandState.sameDraws_Float64 (a b : RandState) (h : a.sameDraws b) :
    a.Float64.1 = b.Float64.1 ∧ a.Float64.2.sameDraws b.Float64.2 := by
  refine ⟨by simpa using h.1 0, ?_, ?_⟩
  · intro k
    have := h.1 (1 + k)
    simpa [RandState.Float64, Nat.add_assoc] using this
  · intro k
    simpa [RandState.Float64] using h.2 k

theorem RandState.sameDraws_NormFloat64 (a b : RandState) (h : a.sameDraws b) :
    a.NormFloat64.1 = b.NormFloat64.1 ∧ a.NormFloat64.2.sameDraws b.NormFloat64.2 := by
  refine ⟨by simpa using h.2 0, ?_, ?_⟩
  · intro k
    simpa [RandState.NormFloat64] using h.1 k
  · intro k
    have := h.2 (1 + k)
    simpa [RandState.NormFloat64, Nat.add_assoc] using this

theorem optRel_bind {α β : Type} (R : α → α → Prop) (S : β → β → Prop)
    (x y : Option α) (f g : α → Option β) (hxy : optRel R x y)
    (hfg : ∀ a b, R a b → optRel S (f a) (g b)) :
    optRel S (x.bind f) (y.bind g) := by
  cases x <;> cases y <;> simp_all [optRel]

theorem foldlM_optRel {σ : Type} (R : σ → σ → Prop) (f g : σ → Nat → Option σ)
    (hfg : ∀ a b i, R a b → optRel R (f a i) (g b i)) :
    ∀ (l : List Nat) (a b : σ), R a b → optRel R (l.foldlM f a) (l.foldlM g b) := by
  intro l
  induction l with
  | nil => intro a b h; simpa [optRel] using h
  | cons i l ih =>
    intro a b h
    simp only [List.foldlM_cons, Option.bind_eq_bind]
    exact optRel_bind R R _ _ _ _ (hfg a b i h) (fun a' b' h' => ih a' b' h')

theorem foldl_rel {σ : Type} (R : σ → σ → Prop) (f g : σ → Nat → σ)
    (hfg : ∀ a b i, R a b → R (f a i) (g b i)) :
    ∀ (l : List Nat) (a b : σ), R a b → R (l.foldl f a) (l.foldl g b) := by
  intro l
  induction l with
  | nil => intro a b h; simpa using h
  | cons i l ih =>
    intro a b h
    simp only [List.foldl_cons]
    exact ih _ _ (hfg a b i h)

theorem Glowworm.Initialize_agent_sameDraws (g : Glowworm) (dimensions : Int)
    (minPosition maxPosition minLuminosity maxLuminosity : ℝ) (rnd rnd' : RandState)
    (h : rnd.sameDraws rnd') :
    optRel sameState
      (g.Initialize dimensions minPosition maxPosition minLuminosity maxLuminosity rnd)
      (g.Initialize dimensions minPosition maxPosition minLuminosity maxLuminosity rnd') := by
  by_cases hd : dimensions < 0
  · simp [Glowworm.Initialize, hd, optRel]
  · have hfill := foldl_rel (sameState (α := List ℝ))
      (Glowworm.Initialize.body minPosition maxPosition)
      (Glowworm.Initialize.body minPosition maxPosition)
      (fun a b i hab => by
        obtain ⟨h1, h2⟩ := RandState.sameDraws_Float64 a.2 b.2 hab.2
        exact ⟨by simp only [Glowworm.Initialize.body, hab.1, h1], h2⟩)
      (List.range (List.replicate dimensions.toNat (0 : ℝ)).length)
      (List.replicate dimensions.toNat 0, rnd) (List.replicate dimensions.toNat 0, rnd')
      ⟨rfl, h⟩
    obtain ⟨h1, h2⟩ := RandState.sameDraws_Float64 _ _ hfill.2
    simp only [Glowworm.Initialize, hd, if_false, optRel, sameState]
    exact ⟨by rw [hfill.1, h1], h2⟩

theorem GlowwormSwarm.Initialize_population_sameDraws (s s' : GlowwormSwarm) (swarmSize dimensions : Int)
    (minPosition maxPosition minLuminosity maxLuminosity : ℝ) (rnd rnd' : RandState)
    (hr : s.PerceptionRadius = s'.PerceptionRadius)
    (ha : s.AttractionFactor = s'.AttractionFactor)
    (hm : s.RandomMotionFactor = s'.RandomMotionFactor) (h : rnd.sameDraws rnd') :
    optRel sameState
      (s.Initialize swarmSize dimensions minPosition maxPosition minLuminosity maxLuminosity rnd)
      (s'.Initialize swarmSize dimensions minPosition maxPosition minLuminosity maxLuminosity
        rnd') := by
  by_cases hs : swarmSize < 0
  · simp [GlowwormSwarm.Initialize, hs, optRel]
  · have hloop := foldlM_optRel (sameState (α := List Glowworm))
      (GlowwormSwarm.Initialize.body dimensions minPosition maxPosition minLuminosity
        maxLuminosity)
      (GlowwormSwarm.Initialize.body dimensions minPosition maxPosition minLuminosity
        maxLuminosity)
      (fun a b i hab => by
        simp only [GlowwormSwarm.Initialize.body, Option.bind_eq_bind]
        refine optRel_bind sameState sameState _ _ _ _
          (Glowworm.Initialize_agent_sameDraws Glowworm.zero dimensions minPosition maxPosition
            minLuminosity maxLuminosity a.2 b.2 hab.2) ?_
        intro x y hxy
        exact ⟨by simp only [hab.1, hxy.1], hxy.2⟩)
      (List.range (List.replicate swarmSize.toNat Glowworm.zero).length)
      (List.replicate swarmSize.toNat Glowworm.zero, rnd)
      (List.replicate swarmSize.toNat Glowworm.zero, rnd') ⟨rfl, h⟩
    simp only [GlowwormSwarm.Initialize, hs, if_false, Option.bind_eq_bind]
    refine optRel_bind sameState sameState _ _ _ _ hloop ?_
    intro x y hxy
    refine ⟨?_, hxy.2⟩
    show ({ s with Glowworms := x.1 } : GlowwormSwarm) = { s' with Glowworms := y.1 }
    rw [hxy.1]
    cases s; cases s'
    simp_all

theorem GlowwormSwarm.Update.motion_sameDraws (f : ℝ) (a b : List ℝ × RandState) (i : Nat)
    (hab : sameState a b) :
    optRel sameState (GlowwormSwarm.Update.motion f a i)
      (GlowwormSwarm.Update.motion f b i) := by
  obtain ⟨h1, h2⟩ := RandState.sameDraws_NormFloat64 a.2 b.2 hab.2
  simp only [GlowwormSwarm.Update.motion, hab.1, Option.bind_eq_bind]
  cases b.1[i]? with
  | none => simp [optRel]
  | some p => exact ⟨by simp only [h1], h2⟩

theorem GlowwormSwarm.Update.body_sameDraws (s : GlowwormSwarm)
    (a b : List Glowworm × RandState) (i : Nat) (hab : sameState a b) :
    optRel sameState (GlowwormSwarm.Update.body s a i) (GlowwormSwarm.Update.body s b i) := by
  simp only [GlowwormSwarm.Update.body, hab.1, Option.bind_eq_bind]
  cases Glowworm.UpdateNeighborCount b.1 i s.PerceptionRadius with
  | none => simp [optRel]
  | some counted =>
    simp only [Option.some_bind]
    cases counted[i]? with
    | none => simp [optRel]
    | some g =>
      simp only [Option.some_bind]
      refine optRel_bind sameState sameState _ _ _ _
        (foldlM_optRel sameState _ _
          (fun x y j hxy => GlowwormSwarm.Update.motion_sameDraws s.RandomMotionFactor x y j hxy)
          _ _ _ ⟨rfl, hab.2⟩) ?_
      intro x y hxy
      exact ⟨by simp only [hxy.1], hxy.2⟩

theorem GlowwormSwarm.Update_sameDraws (s : GlowwormSwarm) (rnd rnd' : RandState)
    (h : rnd.sameDraws rnd') :
    optRel sameState (s.Update rnd) (s.Update rnd') := by
  simp only [GlowwormSwarm.Update, Option.bind_eq_bind]
  refine optRel_bind sameState sameState _ _ _ _
    (foldlM_optRel sameState _ _
      (fun x y j hxy => GlowwormSwarm.Update.body_sameDraws s x y j hxy) _ _ _ ⟨rfl, h⟩) ?_
  intro x y hxy
  exact ⟨by simp only [hxy.1], hxy.2⟩

theorem GlowwormSwarm.run_sameDraws (k : Nat) :
    ∀ (a b : GlowwormSwarm × RandState), sameState a b →
      optRel sameState (GlowwormSwarm.run k a.1 a.2) (GlowwormSwarm.run k b.1 b.2) := by
  induction k with
  | zero => intro a b h; exact h
  | succ k ih =>
    intro a b h
    simp only [GlowwormSwarm.run, Option.bind_eq_bind]
    have hu := GlowwormSwarm.Update_sameDraws a.1 a.2 b.2 h.2
    rw [← h.1]
    exact optRel_bind sameState sameState _ _ _ _ hu (fun x y hxy => ih x y hxy)

theorem optRel_sameState_map {α β : Type} (f : α → β) (x y : Option (α × RandState))
    (h : optRel sameState x y) :
    x.map (fun o => f o.1) = y.map (fun o => f o.1) := by
  cases x <;> cases y <;> simp_all [optRel, sameState]

/-- C13: determinism under an injected random source. The population left by
`Initialize` followed by `k` `Update` calls is a function of the arguments of
`Initialize`, of the three parameters of the swarm and of the sequences of
draws delivered by the random source: two runs that agree on these end in the
same population (same positions, luminosities and neighbour counts), or both
panic. -/
theorem GlowwormSwarm.deterministic_under_injected_source (s s' : GlowwormSwarm)
    (swarmSize dimensions : Int)
    (minPosition maxPosition minLuminosity maxLuminosity : ℝ) (k : Nat)
    (rnd rnd' : RandState)
    (hr : s.PerceptionRadius = s'.PerceptionRadius)
    (ha : s.AttractionFactor = s'.AttractionFactor)
    (hm : s.RandomMotionFactor = s'.RandomMotionFactor) (h : rnd.sameDraws rnd') :
    ((s.Initialize swarmSize dimensions minPosition maxPosition minLuminosity maxLuminosity
        rnd).bind (fun o => GlowwormSwarm.run k o.1 o.2)).map (fun o => o.1.Glowworms)
      = ((s'.Initialize swarmSize dimensions minPosition maxPosition minLuminosity
        maxLuminosity rnd').bind (fun o => GlowwormSwarm.run k o.1 o.2)).map
          (fun o => o.1.Glowworms) := by
  apply optRel_sameState_map
  exact optRel_bind sameState sameState _ _ _ _
    (GlowwormSwarm.Initialize_population_sameDraws s s' swarmSize dimensions minPosition maxPosition
      minLuminosity maxLuminosity rnd rnd' hr ha hm h)
    (fun x y hxy => GlowwormSwarm.run_sameDraws k x y hxy)

theorem GlowwormSwarm.deterministic_under_injected_source_witness :
    ((driverSwarm.Initialize 10 2 (-10) 10 0 1 (RandState.const (1 / 2) 1)).bind
        (fun o => GlowwormSwarm.run 100 o.1 o.2)).map (fun o => o.1.Glowworms)
      = (((fixtureSwarm 2 (1 / 10) (1 / 10)).Initialize 10 2 (-10) 10 0 1
          { RandState.const (1 / 2) 1 with nFloat64 := 7, nNormFloat64 := 3 }).bind
        (fun o => GlowwormSwarm.run 100 o.1 o.2)).map (fun o => o.1.Glowworms) ∧
    (((driverSwarm.Initialize 10 2 (-10) 10 0 1 (RandState.const (1 / 2) 1)).bind
        (fun o => GlowwormSwarm.run 100 o.1 o.2)).map (fun o => o.1.Glowworms)).isSome := by
  refine ⟨GlowwormSwarm.deterministic_under_injected_source driverSwarm
    (fixtureSwarm 2 (1 / 10) (1 / 10)) 10 2 (-10) 10 0 1 100 (RandState.const (1 / 2) 1)
    { RandState.const (1 / 2) 1 with nFloat64 := 7, nNormFloat64 := 3 } rfl rfl rfl
    ⟨fun _ => rfl, fun _ => rfl⟩, ?_⟩
  obtain ⟨gs, rnd0, he, _, hdim⟩ := GlowwormSwarm.Initialize_population driverSwarm 10 2
    (-10) 10 0 1 (RandState.const (1 / 2) 1) (by decide) (Or.inl (by decide))
  obtain ⟨gk, rndk, hrun, _, _⟩ := GlowwormSwarm.run_spec 2 100
    { driverSwarm with Glowworms := gs } rnd0 (fun x hx => (hdim x hx).1)
  have hb : (driverSwarm.Initialize 10 2 (-10) 10 0 1 (RandState.const (1 / 2) 1)).bind
      (fun o => GlowwormSwarm.run 100 o.1 o.2)
      = some ({ driverSwarm with Glowworms := gk }, rndk) := by
    rw [he, Option.some_bind]
    exact hrun
  rw [hb]
  rfl

/-! ## The configuration is immutable -/

theorem foldlM_invariant {σ : Type} (P : σ → Prop) (f : σ → Nat → Option σ)
    (hf : ∀ a i b, f a i = some b → P a → P b) :
    ∀ (l : List Nat) (a b : σ), l.foldlM f a = some b → P a → P b := by
  intro l
  induction l with
  | nil =>
    intro a b h hp
    simp only [List.foldlM_nil, Option.pure_def, Option.some_inj] at h
    exact h ▸ hp
  | cons i l ih =>
    intro a b h hp
    simp only [List.foldlM_cons, Option.bind_eq_bind] at h
    obtain ⟨c, hc, hrest⟩ := Option.bind_eq_some.mp h
    exact ih c b hrest (hf a i c hc hp)

theorem Glowworm.UpdateNeighborCount_length (glowworms out : List Glowworm) (i : Nat) (r : ℝ)
    (h : Glowworm.UpdateNeighborCount glowworms i r = some out) :
    out.length = glowworms.length := by
  simp only [Glowworm.UpdateNeighborCount, Option.bind_eq_bind] at h
  obtain ⟨g, _, h1⟩ := Option.bind_eq_some.mp h
  obtain ⟨count, _, h2⟩ := Option.bind_eq_some.mp h1
  simp only [Option.pure_def, Option.some_inj] at h2
  rw [← h2, List.length_set]

theorem GlowwormSwarm.Update.body_length (s : GlowwormSwarm)
    (st out : List Glowworm × RandState) (i : Nat)
    (h : GlowwormSwarm.Update.body s st i = some out) :
    out.1.length = st.1.length := by
  simp only [GlowwormSwarm.Update.body, Option.bind_eq_bind] at h
  obtain ⟨counted, hc, h1⟩ := Option.bind_eq_some.mp h
  obtain ⟨g, _, h2⟩ := Option.bind_eq_some.mp h1
  obtain ⟨moved, _, h3⟩ := Option.bind_eq_some.mp h2
  simp only [Option.pure_def, Option.some_inj] at h3
  rw [← h3, List.length_set, Glowworm.UpdateNeighborCount_length _ _ _ _ hc]

/-- Whenever `Update` returns, it returns the swarm with only its population
replaced, by a population of the same size. -/
theorem GlowwormSwarm.Update_frame (s s' : GlowwormSwarm) (rnd rnd' : RandState)
    (h : s.Update rnd = some (s', rnd')) :
    s' = { s with Glowworms := s'.Glowworms } ∧ s'.Glowworms.length = s.Glowworms.length := by
  simp only [GlowwormSwarm.Update, Option.bind_eq_bind] at h
  obtain ⟨out, hout, h1⟩ := Option.bind_eq_some.mp h
  simp only [Option.pure_def, Option.some_inj, Prod.mk.injEq] at h1
  have hlen := foldlM_invariant (fun st => st.1.length = s.Glowworms.length)
    (GlowwormSwarm.Update.body s)
    (fun a i b hb hp => (GlowwormSwarm.Update.body_length s a b i hb).trans hp)
    _ _ _ hout rfl
  rw [← h1.1]
  exact ⟨rfl, hlen⟩

/-- Whenever `GlowwormSwarm.Initialize` returns, it returns the swarm with
only its population replaced. -/
theorem GlowwormSwarm.Initialize_frame (s s' : GlowwormSwarm) (swarmSize dimensions : Int)
    (minPosition maxPosition minLuminosity maxLuminosity : ℝ) (rnd rnd' : RandState)
    (h : s.Initialize swarmSize dimensions minPosition maxPosition minLuminosity
      maxLuminosity rnd = some (s', rnd')) :
    s' = { s with Glowworms := s'.Glowworms } := by
  by_cases hs : swarmSize < 0
  · simp [GlowwormSwarm.Initialize, hs] at h
  · simp only [GlowwormSwarm.Initialize, hs, if_false, Option.bind_eq_bind] at h
    obtain ⟨out, _, h1⟩ := Option.bind_eq_some.mp h
    simp only [Option.pure_def, Option.some_inj, Prod.mk.injEq] at h1
    rw [← h1.1]

/-- C14: the configuration is immutable. Whenever `Update` or
`GlowwormSwarm.Initialize` returns, `PerceptionRadius`, `AttractionFactor` and
`RandomMotionFactor` are what they were before the call; `Update` changes
only the agents of the population, whose number it keeps, and it returns on
every swarm whose positions all have the same length. -/
theorem GlowwormSwarm.configuration_immutable (s : GlowwormSwarm) (rnd : RandState) :
    (∀ s' rnd', s.Update rnd = some (s', rnd') →
      s'.PerceptionRadius = s.PerceptionRadius ∧ s'.AttractionFactor = s.AttractionFactor ∧
      s'.RandomMotionFactor = s.RandomMotionFactor ∧
      s'.Glowworms.length = s.Glowworms.length) ∧
    (∀ (swarmSize dimensions : Int)
      (minPosition maxPosition minLuminosity maxLuminosity : ℝ) s' rnd',
      s.Initialize swarmSize dimensions minPosition maxPosition minLuminosity maxLuminosity rnd
        = some (s', rnd') →
      s'.PerceptionRadius = s.PerceptionRadius ∧ s'.AttractionFactor = s.AttractionFactor ∧
      s'.RandomMotionFactor = s.RandomMotionFactor) ∧
    (∀ D : Nat, (∀ x ∈ s.Glowworms, x.Position.length = D) →
      ∃ gs rnd', s.Update rnd = some ({ s with Glowworms := gs }, rnd') ∧
        gs.length = s.Glowworms.length) := by
  refine ⟨?_, ?_, ?_⟩
  · intro s' rnd' h
    obtain ⟨h1, h2⟩ := GlowwormSwarm.Update_frame s s' rnd rnd' h
    rw [h1]
    exact ⟨rfl, rfl, rfl, h2⟩
  · intro swarmSize dimensions minPosition maxPosition minLuminosity maxLuminosity s' rnd' h
    rw [GlowwormSwarm.Initialize_frame s s' swarmSize dimensions minPosition maxPosition
      minLuminosity maxLuminosity rnd rnd' h]
    exact ⟨rfl, rfl, rfl⟩
  · intro D hdim
    exact ⟨_, _, GlowwormSwarm.Update_eq s D rnd hdim,
      GlowwormSwarm.sweep_length s D s.Glowworms rnd _⟩

theorem GlowwormSwarm.configuration_immutable_witness :
    ∃ gs rnd', (fixtureSwarm 2 (1 / 10) (1 / 10)).Update (RandState.const 0 1)
        = some ({ fixtureSwarm 2 (1 / 10) (1 / 10) with Glowworms := gs }, rnd') ∧
      gs.length = 3 :=
  (GlowwormSwarm.configuration_immutable (fixtureSwarm 2 (1 / 10) (1 / 10))
    (RandState.const 0 1)).2.2 2 fixture3_dim

/-! ## `Update` is sequential and in place -/

/-- The population read by turn `i` of a pass: the agents before `i` as the
pass leaves them, the agents from `i` on as they were before the pass. -/
theorem GlowwormSwarm.sweep_eq_take_append_drop (s : GlowwormSwarm) (D : Nat)
    (gs : List Glowworm) (rnd : RandState) (i : Nat) (hi : i ≤ gs.length) :
    s.sweep D gs rnd i = (s.sweep D gs rnd gs.length).take i ++ gs.drop i := by
  have hlen := GlowwormSwarm.sweep_length s D gs rnd gs.length
  have htake : ((s.sweep D gs rnd gs.length).take i).length = i := by
    rw [List.length_take, hlen]; omega
  apply List.ext_getElem?
  intro j
  by_cases hj : j < i
  · rw [List.getElem?_append_left (by omega), List.getElem?_take_of_lt hj,
      GlowwormSwarm.sweep_getElem?_lt s D gs rnd i j hj (by omega),
      GlowwormSwarm.sweep_getElem?_lt s D gs rnd gs.length j (by omega) (by omega)]
  · rw [List.getElem?_append_right (by omega), htake, List.getElem?_drop,
      GlowwormSwarm.sweep_getElem?_ge s D gs rnd i j (by omega)]
    congr 1
    omega

/-- C15: `Update` is sequential and in place. On a swarm whose positions all
have the same length, one pass succeeds and leaves the agent at index `i`
with `NeighborCount = c` and `Luminosity` equal to its luminosity before the
pass plus `AttractionFactor * c`, where `c` is the number of agents `j ≠ i` at
`Distance < PerceptionRadius` from agent `i` as it stood before the pass, in
the population made of the agents `j < i` as the pass leaves them and of the
agents `j > i` as they stood before the pass. -/
theorem GlowwormSwarm.Update_sequential_in_place (s : GlowwormSwarm) (D : Nat)
    (rnd : RandState) (hdim : ∀ x ∈ s.Glowworms, x.Position.length = D) :
    ∃ s' rnd', s.Update rnd = some (s', rnd') ∧
      ∀ (i : Nat) (hi : i < s.Glowworms.length), ∃ g',
        s'.Glowworms[i]? = some g' ∧
        g'.NeighborCount = ((strictNeighbors
          (s'.Glowworms.take i ++ s.Glowworms.drop i) i s.PerceptionRadius).card : Int) ∧
        g'.Luminosity = (s.Glowworms[i]).Luminosity
          + s.AttractionFactor * (g'.NeighborCount : ℝ) := by
  refine ⟨_, _, GlowwormSwarm.Update_eq s D rnd hdim, ?_⟩
  intro i hi
  refine ⟨_, GlowwormSwarm.sweep_full s D s.Glowworms rnd i hi, ?_, rfl⟩
  show ((strictNeighbors (s.sweep D s.Glowworms rnd i) i s.PerceptionRadius).card : Int) = _
  rw [GlowwormSwarm.sweep_eq_take_append_drop s D s.Glowworms rnd i (by omega)]

theorem GlowwormSwarm.Update_sequential_in_place_witness :
    ∃ s' rnd', (fixtureSwarm 2 (1 / 10) (1 / 10)).Update (RandState.const 0 1)
        = some (s', rnd') ∧
      ∀ (i : Nat) (hi : i < (fixtureSwarm 2 (1 / 10) (1 / 10)).Glowworms.length), ∃ g',
        s'.Glowworms[i]? = some g' ∧
        g'.NeighborCount = ((strictNeighbors
          (s'.Glowworms.take i ++ (fixtureSwarm 2 (1 / 10) (1 / 10)).Glowworms.drop i) i
          (fixtureSwarm 2 (1 / 10) (1 / 10)).PerceptionRadius).card : Int) ∧
        g'.Luminosity = ((fixtureSwarm 2 (1 / 10) (1 / 10)).Glowworms[i]).Luminosity
          + (fixtureSwarm 2 (1 / 10) (1 / 10)).AttractionFactor * (g'.NeighborCount : ℝ) :=
  GlowwormSwarm.Update_sequential_in_place (fixtureSwarm 2 (1 / 10) (1 / 10)) 2
    (RandState.const 0 1) fixture3_dim

/-! ## The random motion -/

theorem GlowwormSwarm.turn_Position_getElem? (s : GlowwormSwarm) (g : Glowworm) (count : Nat)
    (rnd : RandState) (i : Nat) (p : ℝ) (hp : g.Position[i]? = some p) :
    (s.turn g count rnd).Position[i]?
      = some (p + rnd.normFloat64 (rnd.nNormFloat64 + i) * s.RandomMotionFactor) := by
  obtain ⟨hi, rfl⟩ := List.getElem?_eq_some_iff.mp hp
  simp [GlowwormSwarm.turn, List.getElem?_range hi, List.getElem?_eq_getElem hi]

/-- C16: one `Update` pass over a swarm of `N` agents whose positions all have
length `D` consumes exactly `N * D` normal draws (and no uniform draw), in
agent-then-coordinate order, and perturbs every coordinate by its own draw
without clamping: the new `Position` of agent `a` has length `D` and its
coordinate `i` is the old coordinate plus `z (a * D + i) * RandomMotionFactor`,
where `z k` is the `k`-th draw of the pass. -/
theorem GlowwormSwarm.Update_random_motion (s : GlowwormSwarm) (D : Nat) (rnd : RandState)
    (hdim : ∀ x ∈ s.Glowworms, x.Position.length = D) :
    ∃ s', s.Update rnd = some (s',
        { rnd with nNormFloat64 := rnd.nNormFloat64 + s.Glowworms.length * D }) ∧
      ∀ (a : Nat) (g : Glowworm), s.Glowworms[a]? = some g →
        ∃ g', s'.Glowworms[a]? = some g' ∧ g'.Position.length = D ∧
          ∀ (i : Nat) (p : ℝ), g.Position[i]? = some p →
            g'.Position[i]? = some
              (p + rnd.normFloat64 (rnd.nNormFloat64 + (a * D + i)) * s.RandomMotionFactor) := by
  refine ⟨_, GlowwormSwarm.Update_eq s D rnd hdim, ?_⟩
  intro a g hg
  obtain ⟨ha, rfl⟩ := List.getElem?_eq_some_iff.mp hg
  refine ⟨_, GlowwormSwarm.sweep_full s D s.Glowworms rnd a ha, ?_, ?_⟩
  · rw [GlowwormSwarm.turn_Position_length]
    exact hdim _ (List.getElem_mem ha)
  · intro i p hp
    rw [GlowwormSwarm.turn_Position_getElem? s _ _ _ i p hp]
    simp [Nat.add_assoc]

theorem GlowwormSwarm.Update_random_motion_witness :
    ∃ s', (fixtureSwarm 2 (1 / 10) (1 / 10)).Update (RandState.const 0 1) = some (s',
        { RandState.const 0 1 with nNormFloat64 := 6 }) ∧
      ∀ (a : Nat) (g : Glowworm), fixture3[a]? = some g →
        ∃ g', s'.Glowworms[a]? = some g' ∧ g'.Position.length = 2 ∧
          ∀ (i : Nat) (p : ℝ), g.Position[i]? = some p →
            g'.Position[i]? = some (p + 1 * (1 / 10)) :=
  GlowwormSwarm.Update_random_motion (fixtureSwarm 2 (1 / 10) (1 / 10)) 2
    (RandState.const 0 1) fixture3_dim

/-! ## The two-phase variant and snapshot isolation -/

theorem Glowworm.Distance_congr (g g' other other' : Glowworm)
    (h1 : g.Position = g'.Position) (h2 : other.Position = other'.Position) :
    g.Distance other = g'.Distance other' := by
  have hb : Glowworm.Distance.body g other = Glowworm.Distance.body g' other' := by
    funext sum i
    simp only [Glowworm.Distance.body, h1, h2]
  simp only [Glowworm.Distance, hb, h1]

theorem getElem?_of_map_Position_eq (gs gs' : List Glowworm)
    (h : gs.map Glowworm.Position = gs'.map Glowworm.Position) (i : Nat) (g : Glowworm)
    (hg : gs[i]? = some g) : ∃ g', gs'[i]? = some g' ∧ g'.Position = g.Position := by
  have h1 : (gs.map Glowworm.Position)[i]? = some g.Position := by
    rw [List.getElem?_map, hg]; rfl
  rw [h, List.getElem?_map] at h1
  cases hgi : gs'[i]? with
  | none => rw [hgi] at h1; simp at h1
  | some g' =>
    rw [hgi] at h1
    simp only [Option.map_some', Option.some_inj] at h1
    exact ⟨g', rfl, h1⟩

theorem isStrictNeighbor_of_map_Position_eq (gs gs' : List Glowworm)
    (h : gs.map Glowworm.Position = gs'.map Glowworm.Position) (i j : Nat) (r : ℝ)
    (hn : isStrictNeighbor gs i r j) : isStrictNeighbor gs' i r j := by
  obtain ⟨hne, g, other, d, hg, ho, hd, hlt⟩ := hn
  obtain ⟨g', hg', hgp⟩ := getElem?_of_map_Position_eq gs gs' h i g hg
  obtain ⟨o', ho', hop⟩ := getElem?_of_map_Position_eq gs gs' h j other ho
  exact ⟨hne, g', o', d, hg', ho', by rw [Glowworm.Distance_congr g' g o' other hgp hop]; exact hd,
    hlt⟩

/-- The set of neighbours depends on the positions only. -/
theorem strictNeighbors_congr (gs gs' : List Glowworm)
    (h : gs.map Glowworm.Position = gs'.map Glowworm.Position) (i : Nat) (r : ℝ) :
    strictNeighbors gs i r = strictNeighbors gs' i r := by
  have hlen : gs.length = gs'.length := by
    have := congrArg List.length h
    simpa using this
  ext j
  rw [mem_strictNeighbors, mem_strictNeighbors, hlen]
  constructor
  · exact fun ⟨h1, h2⟩ => ⟨h1, isStrictNeighbor_of_map_Position_eq gs gs' h i j r h2⟩
  · exact fun ⟨h1, h2⟩ => ⟨h1, isStrictNeighbor_of_map_Position_eq gs' gs h.symm i j r h2⟩

theorem map_Position_set (L : List Glowworm) (n : Nat) (g : Glowworm) (hn : n < L.length)
    (h : g.Position = (L[n]).Position) :
    (L.set n g).map Glowworm.Position = L.map Glowworm.Position := by
  apply List.ext_getElem?
  intro j
  rw [List.getElem?_map, List.getElem?_map, List.getElem?_set]
  by_cases hj : n = j
  · subst hj
    simp [hn, List.getElem?_eq_getElem hn, h]
  · simp [hj]

theorem dim_of_map_Position_eq (gs L : List Glowworm) (D : Nat)
    (hdim : ∀ x ∈ gs, x.Position.length = D)
    (h : L.map Glowworm.Position = gs.map Glowworm.Position) :
    ∀ x ∈ L, x.Position.length = D := by
  intro x hx
  have hmem : x.Position ∈ gs.map Glowworm.Position := by
    rw [← h]; exact List.mem_map_of_mem _ hx
  obtain ⟨y, hy, hyx⟩ := List.mem_map.mp hmem
  rw [← hyx]
  exact hdim y hy

/-- The first loop of the two-phase variant stores in every agent its number
of neighbours in the population as it stood before the pass. -/
theorem GlowwormSwarm.UpdateTwoPhase.count_loop (gs : List Glowworm) (D : Nat) (r : ℝ)
    (hdim : ∀ x ∈ gs, x.Position.length = D) :
    ∀ n : Nat, n ≤ gs.length →
      ∃ L : List Glowworm,
        (List.range n).foldlM (fun l i => Glowworm.UpdateNeighborCount l i r) gs = some L ∧
        L.length = gs.length ∧
        L.map Glowworm.Position = gs.map Glowworm.Position ∧
        (∀ (j : Nat) (hj : j < gs.length), j < n → L[j]? = some
          { gs[j] with NeighborCount := ((strictNeighbors gs j r).card : Int) }) ∧
        (∀ j : Nat, n ≤ j → L[j]? = gs[j]?) := by
  intro n
  induction n with
  | zero => intro _; exact ⟨gs, by simp⟩
  | succ n ih =>
    intro hn
    obtain ⟨L, hL, hlen, hpos, hlow, hhigh⟩ := ih (by omega)
    have hnL : n < L.length := by omega
    have hng : n < gs.length := by omega
    have hLn : L[n] = gs[n] := by
      have := hhigh n le_rfl
      rw [List.getElem?_eq_getElem hnL, List.getElem?_eq_getElem hng, Option.some_inj] at this
      exact this
    have hstep := Glowworm.UpdateNeighborCount_eq L D n r
      (dim_of_map_Position_eq gs L D hdim hpos) hnL
    rw [strictNeighbors_congr L gs hpos n r, hLn] at hstep
    refine ⟨L.set n { gs[n] with NeighborCount := ((strictNeighbors gs n r).card : Int) },
      ?_, ?_, ?_, ?_, ?_⟩
    · rw [List.range_succ, List.foldlM_append, hL]
      simp only [Option.some_bind, List.foldlM_cons, List.foldlM_nil, Option.bind_eq_bind]
      rw [hstep]
      rfl
    · rw [List.length_set, hlen]
    · rw [map_Position_set L n _ hnL (by rw [hLn]), hpos]
    · intro j hj hjn
      rw [List.getElem?_set]
      by_cases hnj : n = j
      · subst hnj
        simp [hnL]
      · rw [if_neg hnj]
        exact hlow j hj (by omega)
    · intro j hj
      rw [List.getElem?_set, if_neg (by omega)]
      exact hhigh j (by omega)

theorem GlowwormSwarm.UpdateTwoPhase.apply_turn (s : GlowwormSwarm) (L : List Glowworm)
    (rnd : RandState) (i : Nat) (g : Glowworm) (c : Nat)
    (hL : L[i]? = some { g with NeighborCount := (c : Int) }) :
    GlowwormSwarm.UpdateTwoPhase.apply s (L, rnd) i
      = some (L.set i (s.turn g c rnd),
          { rnd with nNormFloat64 := rnd.nNormFloat64 + g.Position.length }) := by
  simp only [GlowwormSwarm.UpdateTwoPhase.apply, hL, Option.some_bind, Option.bind_eq_bind]
  rw [GlowwormSwarm.Update.motion_loop_eq]
  simp [GlowwormSwarm.turn]

/-- The second loop of the two-phase variant gives every agent the turn of
`Update` with the count stored by the first loop. -/
theorem GlowwormSwarm.UpdateTwoPhase.apply_loop (s : GlowwormSwarm) (gs C : List Glowworm)
    (D : Nat) (rnd : RandState) (c : Nat → Nat)
    (hdim : ∀ x ∈ gs, x.Position.length = D) (hlen : C.length = gs.length)
    (hC : ∀ (j : Nat) (hj : j < gs.length),
      C[j]? = some { gs[j] with NeighborCount := (c j : Int) }) :
    ∀ n : Nat, n ≤ gs.length →
      ∃ M : List Glowworm,
        (List.range n).foldlM (GlowwormSwarm.UpdateTwoPhase.apply s) (C, rnd)
          = some (M, { rnd with nNormFloat64 := rnd.nNormFloat64 + n * D }) ∧
        M.length = gs.length ∧
        (∀ (j : Nat) (hj : j < gs.length), j < n → M[j]? = some
          (s.turn gs[j] (c j) { rnd with nNormFloat64 := rnd.nNormFloat64 + j * D })) ∧
        (∀ j : Nat, n ≤ j → M[j]? = C[j]?) := by
  intro n
  induction n with
  | zero => intro _; exact ⟨C, by simp [hlen]⟩
  | succ n ih =>
    intro hn
    obtain ⟨M, hM, hMlen, hlow, hhigh⟩ := ih (by omega)
    have hng : n < gs.length := by omega
    have hMn : M[n]? = some { gs[n] with NeighborCount := (c n : Int) } := by
      rw [hhigh n le_rfl]; exact hC n hng
    have hD : (gs[n]).Position.length = D := hdim _ (List.getElem_mem hng)
    have hstep := GlowwormSwarm.UpdateTwoPhase.apply_turn s M
      { rnd with nNormFloat64 := rnd.nNormFloat64 + n * D } n gs[n] (c n) hMn
    refine ⟨M.set n (s.turn gs[n] (c n) { rnd with nNormFloat64 := rnd.nNormFloat64 + n * D }),
      ?_, ?_, ?_, ?_⟩
    · rw [List.range_succ, List.foldlM_append, hM]
      simp only [Option.some_bind, List.foldlM_cons, List.foldlM_nil, Option.bind_eq_bind]
      rw [hstep, hD]
      simp [Nat.add_assoc, Nat.succ_mul]
    · rw [List.length_set, hMlen]
    · intro j hj hjn
      rw [List.getElem?_set]
      by_cases hnj : n = j
      · subst hnj
        simp [hMlen, hng]
      · rw [if_neg hnj]
        exact hlow j hj (by omega)
    · intro j hj
      rw [List.getElem?_set, if_neg (by omega)]
      exact hhigh j (by omega)

/-- The result of the two-phase variant on a swarm whose positions all have
length `D`: every agent gets the turn of `Update` with its number of
neighbours in the population as it stood before the pass. -/
theorem GlowwormSwarm.UpdateTwoPhase_eq (s : GlowwormSwarm) (D : Nat) (rnd : RandState)
    (hdim : ∀ x ∈ s.Glowworms, x.Position.length = D) :
    ∃ M : List Glowworm,
      s.UpdateTwoPhase rnd = some ({ s with Glowworms := M },
        { rnd with nNormFloat64 := rnd.nNormFloat64 + s.Glowworms.length * D }) ∧
      M.length = s.Glowworms.length ∧
      ∀ (j : Nat) (hj : j < s.Glowworms.length), M[j]? = some
        (s.turn (s.Glowworms[j]) (strictNeighbors s.Glowworms j s.PerceptionRadius).card
          { rnd with nNormFloat64 := rnd.nNormFloat64 + j * D }) := by
  obtain ⟨C, hC, hClen, _, hClow, _⟩ := GlowwormSwarm.UpdateTwoPhase.count_loop s.Glowworms D
    s.PerceptionRadius hdim s.Glowworms.length le_rfl
  obtain ⟨M, hM, hMlen, hMlow, _⟩ := GlowwormSwarm.UpdateTwoPhase.apply_loop s s.Glowworms C D
    rnd (fun j => (strictNeighbors s.Glowworms j s.PerceptionRadius).card) hdim hClen
    (fun j hj => hClow j hj hj) s.Glowworms.length le_rfl
  refine ⟨M, ?_, hMlen, fun j hj => hMlow j hj hj⟩
  simp only [GlowwormSwarm.UpdateTwoPhase, hC, hM, Option.some_bind, Option.bind_eq_bind]
  rfl

/-- The neighbour test read off the list of positions, for a positive radius. -/
theorem isStrictNeighbor_iff_of_positions (gs : List Glowworm) (i j : Nat) (r : ℝ)
    (p q : List ℝ) (hp : (gs.map Glowworm.Position)[i]? = some p)
    (hq : (gs.map Glowworm.Position)[j]? = some q) (hle : p.length ≤ q.length) (hr : 0 < r) :
    isStrictNeighbor gs i r j ↔ j ≠ i ∧ sqDiffSum p q p.length < r ^ 2 := by
  rw [List.getElem?_map] at hp hq
  cases hgi : gs[i]? with
  | none => rw [hgi] at hp; simp at hp
  | some g =>
    cases hgj : gs[j]? with
    | none => rw [hgj] at hq; simp at hq
    | some o =>
      rw [hgi] at hp
      rw [hgj] at hq
      simp only [Option.map_some', Option.some_inj] at hp hq
      subst hp; subst hq
      unfold isStrictNeighbor
      simp only [hgi, hgj, Option.some_inj]
      constructor
      · rintro ⟨hne, g', o', d, rfl, rfl, hd, hlt⟩
        rw [Glowworm.Distance_of_le _ _ hle] at hd
        cases hd
        exact ⟨hne, (Real.sqrt_lt' hr).mp hlt⟩
      · rintro ⟨hne, hlt⟩
        exact ⟨hne, _, _, _, rfl, rfl, Glowworm.Distance_of_le _ _ hle,
          (Real.sqrt_lt' hr).mpr hlt⟩

theorem swarmPair_dim : ∀ x ∈ swarmPair.Glowworms, x.Position.length = 1 := by
  intro x hx
  simp [swarmPair] at hx
  rcases hx with rfl | rfl <;> rfl

theorem swarmPair_sequential_count :
    (strictNeighbors (swarmPair.sweep 1 swarmPair.Glowworms randJump 1) 1
      swarmPair.PerceptionRadius).card = 0 := by
  have hpos : (swarmPair.sweep 1 swarmPair.Glowworms randJump 1).map Glowworm.Position
      = [[10], [1]] := by
    simp [GlowwormSwarm.sweep, GlowwormSwarm.turn, swarmPair, randJump, List.range_succ]
  have hlen : (swarmPair.sweep 1 swarmPair.Glowworms randJump 1).length = 2 :=
    GlowwormSwarm.sweep_length _ _ _ _ _
  rw [Finset.card_eq_zero, Finset.eq_empty_iff_forall_not_mem]
  intro j hj
  obtain ⟨hj2, hn⟩ := (mem_strictNeighbors _ _ _ _).mp hj
  rw [hlen] at hj2
  interval_cases j
  · have h := (isStrictNeighbor_iff_of_positions _ 1 0 swarmPair.PerceptionRadius [1] [10]
      (by rw [hpos]; rfl) (by rw [hpos]; rfl) le_rfl (by norm_num [swarmPair])).mp hn
    norm_num [sqDiffSum, Finset.sum_range_succ, swarmPair] at h
  · exact hn.1 rfl

theorem swarmPair_snapshot_count :
    (strictNeighbors swarmPair.Glowworms 1 swarmPair.PerceptionRadius).card = 1 := by
  have hmem : 0 ∈ strictNeighbors swarmPair.Glowworms 1 swarmPair.PerceptionRadius := by
    refine (mem_strictNeighbors _ _ _ _).mpr ⟨by decide, ?_⟩
    refine (isStrictNeighbor_iff_of_positions swarmPair.Glowworms 1 0
      swarmPair.PerceptionRadius [1] [0] rfl rfl le_rfl (by norm_num [swarmPair])).mpr ?_
    norm_num [sqDiffSum, Finset.sum_range_succ, swarmPair]
  have hle := strictNeighbors_card_le swarmPair.Glowworms 1 swarmPair.PerceptionRadius
    (by decide)
  have hpos : 0 < (strictNeighbors swarmPair.Glowworms 1 swarmPair.PerceptionRadius).card :=
    Finset.card_pos.mpr ⟨0, hmem⟩
  have h2 : swarmPair.Glowworms.length = 2 := rfl
  omega

/-- C17: snapshot isolation changes results. On two agents at `0` and `1`
with perception radius `2`, attraction factor `1`, random-motion factor `1`
and a first normal draw of `10`, the sequential in-place `Update` leaves the
second agent with `NeighborCount = 0` and `Luminosity = 0` (the first agent
has already moved to `10`), while the two-phase variant leaves it with
`NeighborCount = 1` and `Luminosity = 1`. -/
theorem GlowwormSwarm.snapshot_isolation_changes_results :
    ∃ s1 r1 s2 r2 g1 g2,
      swarmPair.Update randJump = some (s1, r1) ∧
      swarmPair.UpdateTwoPhase randJump = some (s2, r2) ∧
      s1.Glowworms[1]? = some g1 ∧ s2.Glowworms[1]? = some g2 ∧
      g1.NeighborCount = 0 ∧ g2.NeighborCount = 1 ∧
      g1.Luminosity = 0 ∧ g2.Luminosity = 1 := by
  obtain ⟨M, hM, _, hMget⟩ := GlowwormSwarm.UpdateTwoPhase_eq swarmPair 1 randJump swarmPair_dim
  have h1 := GlowwormSwarm.sweep_full swarmPair 1 swarmPair.Glowworms randJump 1 (by decide)
  have h2 := hMget 1 (by decide)
  rw [swarmPair_sequential_count] at h1
  rw [swarmPair_snapshot_count] at h2
  refine ⟨_, _, _, _, _, _, GlowwormSwarm.Update_eq swarmPair 1 randJump swarmPair_dim, hM,
    h1, h2, rfl, rfl, ?_, ?_⟩
  · simp [GlowwormSwarm.turn, swarmPair]
  · simp [GlowwormSwarm.turn, swarmPair]

/-! ## Without random motion -/

theorem GlowwormSwarm.sweep_map_Position_of_zero (s : GlowwormSwarm) (D : Nat)
    (gs : List Glowworm) (rnd : RandState) (hz : s.RandomMotionFactor = 0) (n : Nat)
    (hn : n ≤ gs.length) :
    (s.sweep D gs rnd n).map Glowworm.Position = gs.map Glowworm.Position := by
  rw [GlowwormSwarm.sweep_eq_take_append_drop s D gs rnd n hn, List.map_append, List.map_take,
    List.map_drop, GlowwormSwarm.sweep_Position_of_zero s D gs rnd hz, List.take_append_drop]

/-- Without random motion every agent gets, in one pass of `Update`, the turn
with its number of neighbours in the population before the pass. -/
theorem GlowwormSwarm.sweep_full_of_zero (s : GlowwormSwarm) (D : Nat) (gs : List Glowworm)
    (rnd : RandState) (hz : s.RandomMotionFactor = 0) (j : Nat) (hj : j < gs.length) :
    (s.sweep D gs rnd gs.length)[j]? = some
      (s.turn gs[j] (strictNeighbors gs j s.PerceptionRadius).card
        { rnd with nNormFloat64 := rnd.nNormFloat64 + j * D }) := by
  rw [GlowwormSwarm.sweep_full s D gs rnd j hj,
    strictNeighbors_congr _ gs
      (GlowwormSwarm.sweep_map_Position_of_zero s D gs rnd hz j (by omega))]

theorem GlowwormSwarm.Update_eq_UpdateTwoPhase_of_zero (s : GlowwormSwarm) (D : Nat)
    (rnd : RandState) (hdim : ∀ x ∈ s.Glowworms, x.Position.length = D)
    (hz : s.RandomMotionFactor = 0) : s.Update rnd = s.UpdateTwoPhase rnd := by
  obtain ⟨M, hM, hMlen, hMget⟩ := GlowwormSwarm.UpdateTwoPhase_eq s D rnd hdim
  rw [GlowwormSwarm.Update_eq s D rnd hdim, hM]
  have hlist : s.sweep D s.Glowworms rnd s.Glowworms.length = M := by
    apply List.ext_getElem?
    intro j
    by_cases hj : j < s.Glowworms.length
    · rw [GlowwormSwarm.sweep_full_of_zero s D s.Glowworms rnd hz j hj, hMget j hj]
    · rw [List.getElem?_eq_none (by rw [GlowwormSwarm.sweep_length]; omega),
        List.getElem?_eq_none (by omega)]
  rw [hlist]

theorem GlowwormSwarm.run_of_zero (D : Nat) (k : Nat) :
    ∀ (s : GlowwormSwarm) (rnd : RandState), (∀ x ∈ s.Glowworms, x.Position.length = D) →
      s.RandomMotionFactor = 0 →
      ∃ gs rndk, GlowwormSwarm.run k s rnd = some ({ s with Glowworms := gs }, rndk) ∧
        (k = 0 → gs = s.Glowworms) ∧
        ∀ (i : Nat) (g : Glowworm), s.Glowworms[i]? = some g →
          ∃ g', gs[i]? = some g' ∧
            (1 ≤ k → g'.NeighborCount
              = ((strictNeighbors s.Glowworms i s.PerceptionRadius).card : Int)) ∧
            g'.Luminosity = g.Luminosity + (k : ℝ) * s.AttractionFactor
              * ((strictNeighbors s.Glowworms i s.PerceptionRadius).card : ℝ) := by
  induction k with
  | zero =>
    intro s rnd _ _
    refine ⟨s.Glowworms, rnd, rfl, fun _ => rfl, ?_⟩
    intro i g hg
    exact ⟨g, hg, fun h => absurd h (by decide), by simp⟩
  | succ k ih =>
    intro s rnd hdim hz
    have hd1 := GlowwormSwarm.sweep_dim s D s.Glowworms rnd hdim s.Glowworms.length le_rfl
    have hpos := GlowwormSwarm.sweep_Position_of_zero s D s.Glowworms rnd hz
    obtain ⟨gs, rndk, hrun, hk0, hall⟩ := ih
      { s with Glowworms := s.sweep D s.Glowworms rnd s.Glowworms.length }
      { rnd with nNormFloat64 := rnd.nNormFloat64 + s.Glowworms.length * D } hd1 hz
    refine ⟨gs, rndk, ?_, fun h => absurd h (Nat.succ_ne_zero k), ?_⟩
    · rw [GlowwormSwarm.run, GlowwormSwarm.Update_eq s D rnd hdim]
      exact hrun
    · intro i g hg
      obtain ⟨hi, rfl⟩ := List.getElem?_eq_some_iff.mp hg
      have h1 := GlowwormSwarm.sweep_full_of_zero s D s.Glowworms rnd hz i hi
      obtain ⟨g', hg', hnc, hlum⟩ := hall i _ h1
      simp only [strictNeighbors_congr _ s.Glowworms hpos] at hnc hlum
      refine ⟨g', hg', ?_, ?_⟩
      · intro _
        by_cases hk : k = 0
        · have hgs := hk0 hk
          simp only at hgs
          rw [hgs, h1, Option.some_inj] at hg'
          rw [← hg']
          rfl
        · exact hnc (by omega)
      · rw [hlum]
        simp only [GlowwormSwarm.turn]
        push_cast
        ring

/-- C18: with `RandomMotionFactor = 0` the luminosity evolves linearly. On a
swarm whose positions all have the same length, `k` `Update` calls succeed
and leave every agent with `NeighborCount` (when `k ≥ 1`) equal to its number
`n` of neighbours in the initial configuration and with `Luminosity` equal to
its initial luminosity plus `k * AttractionFactor * n`; and one sequential
`Update` returns exactly what the two-phase snapshot variant returns. -/
theorem GlowwormSwarm.linear_luminosity_of_zero_motion (s : GlowwormSwarm) (D k : Nat)
    (rnd : RandState) (hdim : ∀ x ∈ s.Glowworms, x.Position.length = D)
    (hz : s.RandomMotionFactor = 0) :
    (∃ sk rndk, GlowwormSwarm.run k s rnd = some (sk, rndk) ∧
      ∀ (i : Nat) (g : Glowworm), s.Glowworms[i]? = some g →
        ∃ g', sk.Glowworms[i]? = some g' ∧
          (1 ≤ k → g'.NeighborCount
            = ((strictNeighbors s.Glowworms i s.PerceptionRadius).card : Int)) ∧
          g'.Luminosity = g.Luminosity + (k : ℝ) * s.AttractionFactor
            * ((strictNeighbors s.Glowworms i s.PerceptionRadius).card : ℝ)) ∧
    (∃ out, s.Update rnd = some out ∧ s.UpdateTwoPhase rnd = some out) := by
  obtain ⟨gs, rndk, hrun, _, hall⟩ := GlowwormSwarm.run_of_zero D k s rnd hdim hz
  refine ⟨⟨_, rndk, hrun, hall⟩, _, GlowwormSwarm.Update_eq s D rnd hdim, ?_⟩
  rw [← GlowwormSwarm.Update_eq_UpdateTwoPhase_of_zero s D rnd hdim hz]
  exact GlowwormSwarm.Update_eq s D rnd hdim

theorem GlowwormSwarm.linear_luminosity_of_zero_motion_witness :
    (∃ sk rndk, GlowwormSwarm.run 100 (fixtureSwarm 2 (1 / 10) 0) (RandState.const 0 1)
        = some (sk, rndk) ∧
      ∀ (i : Nat) (g : Glowworm), fixture3[i]? = some g →
        ∃ g', sk.Glowworms[i]? = some g' ∧
          (1 ≤ 100 → g'.NeighborCount = ((strictNeighbors fixture3 i 2).card : Int)) ∧
          g'.Luminosity = g.Luminosity + ((100 : Nat) : ℝ) * (1 / 10)
            * ((strictNeighbors fixture3 i 2).card : ℝ)) ∧
    (∃ out, (fixtureSwarm 2 (1 / 10) 0).Update (RandState.const 0 1) = some out ∧
      (fixtureSwarm 2 (1 / 10) 0).UpdateTwoPhase (RandState.const 0 1) = some out) :=
  GlowwormSwarm.linear_luminosity_of_zero_motion (fixtureSwarm 2 (1 / 10) 0) 2 100
    (RandState.const 0 1) fixture3_dim rfl

/-! ## Bounds on the neighbour count -/

/-- C19: on a swarm of `N ≥ 1` agents whose positions all have the same
length, one `Update` succeeds and leaves every agent with a `NeighborCount`
in `[0, N - 1]`; consequently, when `AttractionFactor ≥ 0`, it raises the
agent's `Luminosity` by at most `AttractionFactor * (N - 1)`. -/
theorem GlowwormSwarm.Update_NeighborCount_bounds (s : GlowwormSwarm) (D : Nat)
    (rnd : RandState) (hdim : ∀ x ∈ s.Glowworms, x.Position.length = D)
    (hN : 1 ≤ s.Glowworms.length) :
    ∃ s' rnd', s.Update rnd = some (s', rnd') ∧
      ∀ (i : Nat) (g : Glowworm), s.Glowworms[i]? = some g →
        ∃ g', s'.Glowworms[i]? = some g' ∧
          0 ≤ g'.NeighborCount ∧ g'.NeighborCount ≤ (s.Glowworms.length : Int) - 1 ∧
          (0 ≤ s.AttractionFactor →
            g'.Luminosity ≤ g.Luminosity
              + s.AttractionFactor * ((s.Glowworms.length : ℝ) - 1)) := by
  refine ⟨_, _, GlowwormSwarm.Update_eq s D rnd hdim, ?_⟩
  intro i g hg
  obtain ⟨hi, rfl⟩ := List.getElem?_eq_some_iff.mp hg
  have hlen := GlowwormSwarm.sweep_length s D s.Glowworms rnd i
  have hle := strictNeighbors_card_le (s.sweep D s.Glowworms rnd i) i s.PerceptionRadius
    (by omega)
  rw [hlen] at hle
  refine ⟨_, GlowwormSwarm.sweep_full s D s.Glowworms rnd i hi, ?_, ?_, ?_⟩
  · simp [GlowwormSwarm.turn]
  · simp only [GlowwormSwarm.turn]
    omega
  · intro ha
    simp only [GlowwormSwarm.turn]
    have hc : (((strictNeighbors (s.sweep D s.Glowworms rnd i) i
        s.PerceptionRadius).card : Int) : ℝ) ≤ (s.Glowworms.length : ℝ) - 1 := by
      have h1 : ((strictNeighbors (s.sweep D s.Glowworms rnd i) i
          s.PerceptionRadius).card : ℝ) ≤ ((s.Glowworms.length - 1 : Nat) : ℝ) := by
        exact_mod_cast hle
      rw [Nat.cast_sub hN] at h1
      simpa using h1
    nlinarith [mul_le_mul_of_nonneg_left hc ha]

theorem GlowwormSwarm.Update_NeighborCount_bounds_witness :
    ∃ s' rnd', (fixtureSwarm 2 (1 / 10) (1 / 10)).Update (RandState.const 0 1)
        = some (s', rnd') ∧
      ∀ (i : Nat) (g : Glowworm), fixture3[i]? = some g →
        ∃ g', s'.Glowworms[i]? = some g' ∧
          0 ≤ g'.NeighborCount ∧ g'.NeighborCount ≤ ((3 : Nat) : Int) - 1 ∧
          ((0 : ℝ) ≤ 1 / 10 →
            g'.Luminosity ≤ g.Luminosity + 1 / 10 * (((3 : Nat) : ℝ) - 1)) :=
  GlowwormSwarm.Update_NeighborCount_bounds (fixtureSwarm 2 (1 / 10) (1 / 10)) 2
    (RandState.const 0 1) fixture3_dim (by decide)

/-! ## Index safety -/

/-- C20: index safety. On a swarm whose positions all have the same length
`D`, `Distance` between any two agents, `UpdateNeighborCount` for any agent
and radius, and `Update` all return, without an index out of range; `Update`
leaves every position with length `D`, so that any number of successive
`Update` calls returns. Without the precondition, `g.Distance(other)` panics
exactly when `other.Position` is shorter than `g.Position`. -/
theorem GlowwormSwarm.index_safety (s : GlowwormSwarm) (D : Nat) (rnd : RandState)
    (hdim : ∀ x ∈ s.Glowworms, x.Position.length = D) :
    (∀ g ∈ s.Glowworms, ∀ other ∈ s.Glowworms, ∃ d, g.Distance other = some d) ∧
    (∀ (i : Nat) (r : ℝ), i < s.Glowworms.length →
      ∃ out, Glowworm.UpdateNeighborCount s.Glowworms i r = some out) ∧
    (∃ s' rnd', s.Update rnd = some (s', rnd') ∧
      ∀ x ∈ s'.Glowworms, x.Position.length = D) ∧
    (∀ k : Nat, ∃ sk rndk, GlowwormSwarm.run k s rnd = some (sk, rndk) ∧
      ∀ x ∈ sk.Glowworms, x.Position.length = D) ∧
    (∀ g other : Glowworm,
      g.Distance other = none ↔ other.Position.length < g.Position.length) := by
  refine ⟨?_, ?_, ?_, ?_, ?_⟩
  · intro g hg other ho
    exact ⟨_, Glowworm.Distance_of_le g other (by rw [hdim g hg, hdim other ho])⟩
  · intro i r hi
    exact ⟨_, Glowworm.UpdateNeighborCount_eq s.Glowworms D i r hdim hi⟩
  · exact ⟨_, _, GlowwormSwarm.Update_eq s D rnd hdim,
      GlowwormSwarm.sweep_dim s D s.Glowworms rnd hdim _ le_rfl⟩
  · intro k
    obtain ⟨gs, rndk, hrun, _, hd⟩ := GlowwormSwarm.run_spec D k s rnd hdim
    exact ⟨_, rndk, hrun, hd⟩
  · intro g other
    constructor
    · intro h
      by_contra hlt
      rw [Glowworm.Distance_of_le g other (by omega)] at h
      exact Option.some_ne_none _ h
    · exact Glowworm.Distance_of_lt g other

theorem GlowwormSwarm.index_safety_witness :
    (∀ g ∈ fixture3, ∀ other ∈ fixture3, ∃ d, g.Distance other = some d) ∧
    (∀ (i : Nat) (r : ℝ), i < 3 →
      ∃ out, Glowworm.UpdateNeighborCount fixture3 i r = some out) ∧
    (∃ s' rnd', (fixtureSwarm 2 (1 / 10) (1 / 10)).Update (RandState.const 0 1)
        = some (s', rnd') ∧
      ∀ x ∈ s'.Glowworms, x.Position.length = 2) ∧
    (∀ k : Nat, ∃ sk rndk,
      GlowwormSwarm.run k (fixtureSwarm 2 (1 / 10) (1 / 10)) (RandState.const 0 1)
        = some (sk, rndk) ∧
      ∀ x ∈ sk.Glowworms, x.Position.length = 2) ∧
    (∀ g other : Glowworm,
      g.Distance other = none ↔ other.Position.length < g.Position.length) :=
  GlowwormSwarm.index_safety (fixtureSwarm 2 (1 / 10) (1 / 10)) 2 (RandState.const 0 1)
    fixture3_dim

/-! ## `Glowworm.Initialize` in `float64`: overflow of the range -/

theorem F64.overflow_pos : 0 < F64.overflow := by
  unfold F64.overflow
  norm_num

theorem F64.ofExact_fin (x : ℝ) (hlo : -F64.overflow < x) (hhi : x < F64.overflow) :
    F64.ofExact x = F64.fin x := by
  unfold F64.ofExact
  rw [if_neg (not_le.mpr hhi), if_neg (not_le.mpr hlo)]

/-- Without overflow the `float64` expression `u*(hi-lo) + lo` has the value
it has over the reals. -/
theorem F64.affine_fin (u lo hi : ℝ) (h0 : 0 ≤ u) (h1 : u < 1) (h : lo ≤ hi)
    (hlo : -F64.overflow < lo) (hhi : hi < F64.overflow) (hr : hi - lo < F64.overflow) :
    F64.add (F64.mul (F64.fin u) (F64.sub (F64.fin hi) (F64.fin lo))) (F64.fin lo)
      = F64.fin (u * (hi - lo) + lo) := by
  have hT := F64.overflow_pos
  have hw : 0 ≤ hi - lo := by linarith
  have hm := affine_draw_mem u lo hi h0 h1 h
  have hprod0 : 0 ≤ u * (hi - lo) := mul_nonneg h0 hw
  have hprod1 : u * (hi - lo) ≤ hi - lo := by nlinarith
  have hsub : F64.sub (F64.fin hi) (F64.fin lo) = F64.fin (hi - lo) := by
    simp only [F64.sub, F64.neg, F64.add]
    rw [← sub_eq_add_neg]
    exact F64.ofExact_fin _ (by linarith) hr
  have hmul : F64.mul (F64.fin u) (F64.fin (hi - lo)) = F64.fin (u * (hi - lo)) := by
    simp only [F64.mul]
    exact F64.ofExact_fin _ (by linarith) (by linarith)
  rw [hsub, hmul]
  simp only [F64.add]
  exact F64.ofExact_fin _ (by linarith [hm.1]) (by linarith [hm.2])

theorem foldl_rel_two {σ τ : Type} (R : σ → τ → Prop) (f : σ → Nat → σ) (g : τ → Nat → τ)
    (hfg : ∀ a b i, R a b → R (f a i) (g b i)) :
    ∀ (l : List Nat) (a : σ) (b : τ), R a b → R (l.foldl f a) (l.foldl g b) := by
  intro l
  induction l with
  | nil => intro a b h; simpa using h
  | cons i l ih =>
    intro a b h
    simp only [List.foldl_cons]
    exact ih _ _ (hfg a b i h)

/-- Without overflow of the two ranges, the `float64` initialisation assigns
the values of the initialisation over the reals. -/
theorem Glowworm.InitializeF64_eq (g : Glowworm) (dimensions : Int)
    (minPosition maxPosition minLuminosity maxLuminosity : ℝ) (rnd : RandState)
    (hp : minPosition ≤ maxPosition) (hl : minLuminosity ≤ maxLuminosity)
    (hu : ∀ k : Nat, 0 ≤ rnd.float64 k ∧ rnd.float64 k < 1)
    (hpl : -F64.overflow < minPosition) (hph : maxPosition < F64.overflow)
    (hpr : maxPosition - minPosition < F64.overflow)
    (hll : -F64.overflow < minLuminosity) (hlh : maxLuminosity < F64.overflow)
    (hlr : maxLuminosity - minLuminosity < F64.overflow) :
    Glowworm.InitializeF64 dimensions (F64.fin minPosition) (F64.fin maxPosition)
        (F64.fin minLuminosity) (F64.fin maxLuminosity) rnd
      = (g.Initialize dimensions minPosition maxPosition minLuminosity maxLuminosity rnd).map
          (fun o => (o.1.Position.map F64.fin, F64.fin o.1.Luminosity, o.2)) := by
  by_cases hd : dimensions < 0
  · simp [Glowworm.InitializeF64, Glowworm.Initialize, hd]
  · have hfill := foldl_rel_two
      (fun (a : List F64 × RandState) (b : List ℝ × RandState) =>
        a.1 = b.1.map F64.fin ∧ a.2 = b.2 ∧ b.2.float64 = rnd.float64)
      (Glowworm.InitializeF64.body (F64.fin minPosition) (F64.fin maxPosition))
      (Glowworm.Initialize.body minPosition maxPosition)
      (fun a b i hab => by
        obtain ⟨h1, h2, h3⟩ := hab
        have hdraw := hu b.2.nFloat64
        rw [← h3] at hdraw
        refine ⟨?_, ?_, ?_⟩
        · simp only [Glowworm.InitializeF64.body, Glowworm.Initialize.body, h1, h2,
            List.map_set, RandState.Float64]
          rw [F64.affine_fin _ _ _ hdraw.1 hdraw.2 hp hpl hph hpr]
        · simp only [Glowworm.InitializeF64.body, Glowworm.Initialize.body, h2]
        · simpa [Glowworm.Initialize.body, RandState.Float64] using h3)
      (List.range dimensions.toNat)
      (List.replicate dimensions.toNat (F64.fin 0), rnd) (List.replicate dimensions.toNat 0, rnd)
      ⟨by simp, rfl, rfl⟩
    obtain ⟨h1, h2, h3⟩ := hfill
    have hdraw := hu ((List.range dimensions.toNat).foldl
      (Glowworm.Initialize.body minPosition maxPosition)
      (List.replicate dimensions.toNat 0, rnd)).2.nFloat64
    rw [← h3] at hdraw
    simp only [Glowworm.InitializeF64, Glowworm.Initialize, hd, if_false, List.length_replicate,
      Option.map_some', h1, h2, RandState.Float64]
    rw [F64.affine_fin _ _ _ hdraw.1 hdraw.2 hl hll hlh hlr]

/-- C5 fails as stated: with the valid finite bounds `minPosition = -1e308`
and `maxPosition = 1e308` the range `maxPosition - minPosition` overflows, and
`Initialize(3, -1e308, 1e308, 0, 1)` with uniform draws `1/2` sets every
coordinate to `+Inf`, outside `[minPosition, maxPosition]`. -/
theorem Glowworm.InitializeF64_overflow_counterexample :
    ∃ p l rnd',
      Glowworm.InitializeF64 3 (F64.fin (-(10 ^ 308))) (F64.fin (10 ^ 308)) (F64.fin 0)
        (F64.fin 1) (RandState.const (1 / 2) 0) = some (p, l, rnd') ∧
      p = [F64.posInf, F64.posInf, F64.posInf] ∧
      ¬ ∀ x ∈ p, F64.within (-(10 ^ 308)) (10 ^ 308) x := by
  have hsub : F64.sub (F64.fin (10 ^ 308)) (F64.fin (-(10 ^ 308))) = F64.posInf := by
    simp only [F64.sub, F64.neg, F64.add, F64.ofExact, F64.overflow]
    rw [if_pos (by norm_num)]
  have hmul : F64.mul (F64.fin (1 / 2)) F64.posInf = F64.posInf := by
    simp only [F64.mul, F64.scaleInf]
    norm_num
  have hadd : F64.add F64.posInf (F64.fin (-(10 ^ 308))) = F64.posInf := by
    simp only [F64.add]
  refine ⟨[F64.posInf, F64.posInf, F64.posInf],
    F64.add (F64.mul (F64.fin (1 / 2)) (F64.sub (F64.fin 1) (F64.fin 0))) (F64.fin 0),
    { RandState.const (1 / 2) 0 with nFloat64 := 4 }, ?_, rfl, ?_⟩
  · have hhalf : (2⁻¹ : ℝ) = 1 / 2 := by norm_num
    simp [Glowworm.InitializeF64, Glowworm.InitializeF64.body, RandState.Float64,
      RandState.const, hsub, List.range_succ, List.replicate]
    rw [hhalf, hmul, hadd]
  · intro h
    exact h F64.posInf (by simp)

/-- C5, as the code has it: for `dimensions ≥ 1`, finite bounds with
`minPosition ≤ maxPosition` and `minLuminosity ≤ maxLuminosity` whose ranges
`maxPosition - minPosition` and `maxLuminosity - minLuminosity` do not
overflow `float64`, and uniform draws in `[0,1)`, `Initialize` succeeds with
a `Position` of exactly `dimensions` coordinates, each finite and within
`[minPosition, maxPosition]`, and a finite `Luminosity` within
`[minLuminosity, maxLuminosity]`. -/
theorem Glowworm.InitializeF64_within_bounds (dimensions : Int)
    (minPosition maxPosition minLuminosity maxLuminosity : ℝ) (rnd : RandState)
    (hd : 1 ≤ dimensions) (hp : minPosition ≤ maxPosition)
    (hl : minLuminosity ≤ maxLuminosity)
    (hu : ∀ k : Nat, 0 ≤ rnd.float64 k ∧ rnd.float64 k < 1)
    (hpl : -F64.overflow < minPosition) (hph : maxPosition < F64.overflow)
    (hpr : maxPosition - minPosition < F64.overflow)
    (hll : -F64.overflow < minLuminosity) (hlh : maxLuminosity < F64.overflow)
    (hlr : maxLuminosity - minLuminosity < F64.overflow) :
    ∃ p l rnd',
      Glowworm.InitializeF64 dimensions (F64.fin minPosition) (F64.fin maxPosition)
        (F64.fin minLuminosity) (F64.fin maxLuminosity) rnd = some (p, l, rnd') ∧
      (p.length : Int) = dimensions ∧
      (∀ x ∈ p, F64.within minPosition maxPosition x) ∧
      F64.within minLuminosity maxLuminosity l := by
  obtain ⟨g', rnd', he, hlen, hpos, hlum⟩ := Glowworm.Initialize_within_bounds Glowworm.zero
    dimensions minPosition maxPosition minLuminosity maxLuminosity rnd hd hp hl hu
  refine ⟨g'.Position.map F64.fin, F64.fin g'.Luminosity, rnd', ?_, ?_, ?_, hlum⟩
  · rw [Glowworm.InitializeF64_eq Glowworm.zero dimensions minPosition maxPosition
      minLuminosity maxLuminosity rnd hp hl hu hpl hph hpr hll hlh hlr, he]
    rfl
  · rw [List.length_map]; exact hlen
  · intro x hx
    obtain ⟨y, hy, rfl⟩ := List.mem_map.mp hx
    exact hpos y hy

theorem Glowworm.InitializeF64_within_bounds_witness :
    ∃ p l rnd',
      Glowworm.InitializeF64 2 (F64.fin (-10)) (F64.fin 10) (F64.fin 0) (F64.fin 1)
        (RandState.const (1 / 2) 0) = some (p, l, rnd') ∧
      (p.length : Int) = 2 ∧
      (∀ x ∈ p, F64.within (-10) 10 x) ∧ F64.within 0 1 l :=
  Glowworm.InitializeF64_within_bounds 2 (-10) 10 0 1 (RandState.const (1 / 2) 0)
    (by decide) (by norm_num) (by norm_num)
    (fun _ => by constructor <;> norm_num [RandState.const])
    (by norm_num [F64.overflow]) (by norm_num [F64.overflow]) (by norm_num [F64.overflow])
    (by norm_num [F64.overflow]) (by norm_num [F64.overflow]) (by norm_num [F64.overflow])
